import Mathlib

/-!
Shallow embedding of the Confluence-to-Notion browser extension's document
conversion pipeline (background worker `part_000` and the HTML-to-Markdown
custom rules of `src/content/content-script.js`), together with theorems
settling the frozen claims about it.

Modelling conventions:
* A JavaScript string is modelled as `Str := List Char`; each `Char` stands
  for one UTF-16 code unit.  For the basic-multilingual-plane text handled
  throughout this development the two notions coincide (an astral code point
  such as an emoji, which JS counts as two code units, only ever occurs as
  opaque block metadata, never in length-sensitive positions).
* JavaScript objects become structures; an optional object key becomes an
  `Option` field (`none` = key absent).
* `async` functions awaited sequentially become pure functions threaded
  through `Except`; the network boundary (`notionRequest`) is a parameter
  `api : NotionCall → Except Str PageRef`, and each run also returns the
  ordered trace of calls it issued and the progress updates it reported.
-/

namespace C2N

/-- JavaScript strings, one `Char` per code unit (see header note). -/
abbrev Str := List Char

/-- The backtick character (U+0060), named to keep the source text clean. -/
def btick : Char := Char.ofNat 96

/-- JS `\s` / `String.prototype.trim` whitespace (common members; the exotic
Unicode space characters are not used by any input in this development). -/
def jsIsSpace (c : Char) : Bool :=
  c = ' ' || c = '\t' || c = '\n' || c = '\r' ||
  c = Char.ofNat 0x0b || c = Char.ofNat 0x0c ||
  c = Char.ofNat 0xa0 || c = Char.ofNat 0xfeff

/-- JS `trimStart()`. -/
def trimStart (s : Str) : Str := s.dropWhile jsIsSpace

/-- JS `trimEnd()`. -/
def trimEnd (s : Str) : Str := (s.reverse.dropWhile jsIsSpace).reverse

/-- JS `trim()`. -/
def jsTrim (s : Str) : Str := trimEnd (trimStart s)

/-- JS `hay.startsWith(pre)`. -/
def strStarts (hay pre : Str) : Bool := pre.isPrefixOf hay

/-- JS `hay.endsWith(suf)`. -/
def strEnds (hay suf : Str) : Bool := suf.isSuffixOf hay

/-- JS `hay.includes(needle)`. -/
def strIncludes (hay needle : Str) : Bool :=
  if needle.isPrefixOf hay then true
  else
    match hay with
    | [] => false
    | _ :: t => strIncludes t needle

/-- Helper for `splitOnChar`, carrying the current (reversed) segment. -/
def splitOnCharAux (c : Char) : Str → Str → List Str
  | [], acc => [acc.reverse]
  | x :: t, acc =>
      if x = c then acc.reverse :: splitOnCharAux c t []
      else splitOnCharAux c t (x :: acc)

/-- JS `s.split(c)` for a single-character separator. -/
def splitOnChar (c : Char) (s : Str) : List Str := splitOnCharAux c s []

/-- JS `parts.join(sep)`. -/
def joinWith (sep : Str) (parts : List Str) : Str := List.intercalate sep parts

/-- Decimal rendering of a natural number (JS number-to-string in template
literals, for the non-negative integers that occur here). -/
def natToStr (n : Nat) : Str := (toString n).data

/-- ASCII digit test (JS `\d`). -/
def isDig (c : Char) : Bool := '0' ≤ c && c ≤ '9'

/-- Case-insensitive hex digit test (JS `[a-f0-9]` under the `i` flag). -/
def isHexDig (c : Char) : Bool :=
  isDig c || ('a' ≤ c && c ≤ 'f') || ('A' ≤ c && c ≤ 'F')

/-- JS `toLowerCase` restricted to ASCII (all inputs normalised here are
ASCII language tags). -/
def lowerStr (s : Str) : Str := s.map Char.toLower

end C2N

namespace C2N

/-! ## Data model: rich text runs and blocks -/

/-- The annotation object built by `parseInlineMarkdown`.  The source only
ever stores the value `true` under a key, so key-presence is modelled as the
field being `true`. -/
structure Annot where
  bold : Bool
  italic : Bool
  strikethrough : Bool
  code : Bool
deriving DecidableEq

/-- The empty annotation object `{}`. -/
def noAnn : Annot := ⟨false, false, false, false⟩

/-- JS `Object.keys(a).length === 0`. -/
def annIsEmpty (a : Annot) : Bool :=
  !(a.bold || a.italic || a.strikethrough || a.code)

/-- JS `Object.assign({...parent}, child)`: keys present in the child (all
with value `true`) override/extend the parent's. -/
def annMerge (parent child : Annot) : Annot :=
  ⟨parent.bold || child.bold, parent.italic || child.italic,
   parent.strikethrough || child.strikethrough, parent.code || child.code⟩

/-- One Notion rich-text item `{type:'text', text:{content, link?},
annotations?}`.  `link` is the `text.link.url` string when the key is
present; `annots` is the `annotations` key (absent when `none`). -/
structure RichTextSegment where
  content : Str
  link : Option Str
  annots : Option Annot
deriving DecidableEq

/-- Plain segment `{type:'text', text:{content}}` as written literally at
several places in the source. -/
def plainSeg (content : Str) : RichTextSegment := ⟨content, none, none⟩

/-- Notion block objects `{type, [type]: {...}}` produced by the converter.
`children` on list items is `none` when the key is absent.  A `table` block
carries its `table_row` children as lists of cells (each cell a rich-text
array). -/
inductive Block where
  | paragraph (rich : List RichTextSegment)
  | heading (lvl : Nat) (rich : List RichTextSegment)
  | bulleted (rich : List RichTextSegment) (children : Option (List Block))
  | numbered (rich : List RichTextSegment) (children : Option (List Block))
  | todo (rich : List RichTextSegment) (checked : Bool)
      (children : Option (List Block))
  | quote (rich : List RichTextSegment)
  | callout (rich : List RichTextSegment) (emoji : Str) (color : Str)
  | code (rich : List RichTextSegment) (language : Str)
  | image (url : Str) (caption : List RichTextSegment)
  | divider
  | table (width : Nat) (hasColHeader hasRowHeader : Bool)
      (rows : List (List (List RichTextSegment)))

/-! ## Model of the browser URL constructor

`new URL(...)` is a browser builtin, external to this repository.  Only the
behaviour the source relies on is modelled: for an input of shape
`http[s]://authority[/path...]`, construction succeeds when the authority is
nonempty and the input contains no whitespace; `href` is returned unchanged
(WHATWG normalisation such as percent-encoding or trailing-slash insertion
is not modelled); `pathname` is the substring from the first `/` after the
authority up to the first `?` or `#`, or `/` when absent.  All other inputs
throw (here: `none`). -/

structure JsUrl where
  href : Str
  protocol : Str
  pathname : Str

/-- Model of `new URL(s)` (see section comment). -/
def jsUrlParse (s : Str) : Option JsUrl :=
  let scheme? : Option Str :=
    if strStarts s "http://".data then some "http:".data
    else if strStarts s "https://".data then some "https:".data
    else none
  match scheme? with
  | none => none
  | some proto =>
      let afterScheme := s.drop (proto.length + 2)
      let authority := afterScheme.takeWhile fun c => !(c = '/' || c = '?' || c = '#')
      if authority.isEmpty || s.any jsIsSpace then none
      else
        let rest := afterScheme.drop authority.length
        let path := rest.takeWhile fun c => !(c = '?' || c = '#')
        some { href := s, protocol := proto,
               pathname := if path.isEmpty then "/".data else path }

/-! ## `validateAndCleanUrl` and `createRichTextSegment` (part_000:424-500) -/

/-- The test `/^https?:\/\/.+/.test(t)`: the scheme prefix followed by at
least one character that `.` can match (any character except a newline). -/
def matchesHttpUrl (t : Str) : Bool :=
  (strStarts t "http://".data &&
    (match t.drop 7 with | [] => false | c :: _ => c ≠ '\n')) ||
  (strStarts t "https://".data &&
    (match t.drop 8 with | [] => false | c :: _ => c ≠ '\n'))

/-- `validateAndCleanUrl` (part_000:424-467).  In the source, a parsed URL
whose protocol is not http/https falls through past the remaining branches
to the final `return null`; every such path returns `null`, as here. -/
def validateAndCleanUrl (url : Str) : Option Str :=
  if url.isEmpty || (jsTrim url).isEmpty then none
  else
    let trimmed := jsTrim url
    if matchesHttpUrl trimmed then
      match jsUrlParse trimmed with
      | some u =>
          if u.protocol = "http:".data || u.protocol = "https:".data then
            some u.href
          else none
      | none => none
    else if strStarts trimmed "//".data then
      match jsUrlParse ("https:".data ++ trimmed) with
      | some u => some u.href
      | none => none
    else if strStarts trimmed "/".data || !strIncludes trimmed "://".data then
      none
    else none

/-- `createRichTextSegment` (part_000:476-500).  The `link` argument models
the JS `{url}` object (`some u` = `{url: u}`); a link with an empty url is
falsy-guarded away exactly like a missing one. -/
def createRichTextSegment (content : Str) (ann : Annot) (link : Option Str) :
    RichTextSegment :=
  let linkField : Option Str :=
    match link with
    | some u => if u.isEmpty then none else validateAndCleanUrl u
    | none => none
  { content := content,
    link := linkField,
    annots := if annIsEmpty ann then none else some ann }

end C2N

namespace C2N

/-! ## Inline formatter: `parseInlineMarkdown` (part_000:240-417)

Each source regex is embedded as a deterministic match-at-position function
(the patterns involved have no genuine backtracking: every repetition body
is a character class disjoint from the character that must follow it, and
the two lazy repetitions are forced by the character class bounding them),
plus a generic scanner reproducing `regex.exec` with the `g` flag: find the
leftmost match at or after the cursor, record it, resume at its end. -/

/-- The `type` tag of a collected pattern match. -/
inductive MType where
  | code | bold | strike | italic | link
deriving DecidableEq

/-- One entry of the `matches` array: start/end offsets, type, first
capture group (`content`), and the second capture group for links. -/
structure MdMatch where
  mstart : Nat
  stop : Nat
  mtype : MType
  content : Str
  link : Option Str
deriving DecidableEq

/-- `` `([^`]+)` ``. -/
def tryCodeAt (_ : Option Char) (suf : Str) (p : Nat) : Option MdMatch :=
  match suf with
  | c :: r =>
      if c = btick then
        let run := r.takeWhile fun x => x ≠ btick
        if run.isEmpty then none
        else
          match r.drop run.length with
          | c2 :: _ =>
              if c2 = btick then some ⟨p, p + run.length + 2, .code, run, none⟩
              else none
          | [] => none
      else none
  | [] => none

/-- `\*\*([^*]+)\*\*`. -/
def tryBoldStarAt (_ : Option Char) (suf : Str) (p : Nat) : Option MdMatch :=
  match suf with
  | '*' :: '*' :: r =>
      let run := r.takeWhile fun x => x ≠ '*'
      if run.isEmpty then none
      else
        match r.drop run.length with
        | x :: y :: _ =>
            if x = '*' && y = '*' then
              some ⟨p, p + run.length + 4, .bold, run, none⟩
            else none
        | _ => none
  | _ => none

/-- `__(?!_)([^_]+)__` (the lookahead is subsumed by `[^_]+` needing a
non-underscore first character). -/
def tryBoldUndAt (_ : Option Char) (suf : Str) (p : Nat) : Option MdMatch :=
  match suf with
  | '_' :: '_' :: r =>
      let run := r.takeWhile fun x => x ≠ '_'
      if run.isEmpty then none
      else
        match r.drop run.length with
        | x :: y :: _ =>
            if x = '_' && y = '_' then
              some ⟨p, p + run.length + 4, .bold, run, none⟩
            else none
        | _ => none
  | _ => none

/-- `~~([^~]+)~~`. -/
def tryStrikeAt (_ : Option Char) (suf : Str) (p : Nat) : Option MdMatch :=
  match suf with
  | '~' :: '~' :: r =>
      let run := r.takeWhile fun x => x ≠ '~'
      if run.isEmpty then none
      else
        match r.drop run.length with
        | x :: y :: _ =>
            if x = '~' && y = '~' then
              some ⟨p, p + run.length + 4, .strike, run, none⟩
            else none
        | _ => none
  | _ => none

/-- `(?<!\*)\*(?!\*)([^*]+?)\*(?!\*)`: the lazy body is bounded by `[^*]`,
so the content is exactly the run up to the next `*`, which must not be
doubled. -/
def tryItalicStarAt (prev : Option Char) (suf : Str) (p : Nat) :
    Option MdMatch :=
  match suf with
  | '*' :: r =>
      if prev = some '*' then none
      else
        match r with
        | [] => none
        | c1 :: _ =>
            if c1 = '*' then none
            else
              let run := r.takeWhile fun x => x ≠ '*'
              match r.drop run.length with
              | '*' :: '*' :: _ => none
              | '*' :: _ => some ⟨p, p + run.length + 2, .italic, run, none⟩
              | _ => none
  | _ => none

/-- `(?<!_)_(?!_)([^_]+?)_(?!_)`. -/
def tryItalicUndAt (prev : Option Char) (suf : Str) (p : Nat) :
    Option MdMatch :=
  match suf with
  | '_' :: r =>
      if prev = some '_' then none
      else
        match r with
        | [] => none
        | c1 :: _ =>
            if c1 = '_' then none
            else
              let run := r.takeWhile fun x => x ≠ '_'
              match r.drop run.length with
              | '_' :: '_' :: _ => none
              | '_' :: _ => some ⟨p, p + run.length + 2, .italic, run, none⟩
              | _ => none
  | _ => none

/-- `\[([^\]]+)\]\(([^)]+)\)`. -/
def tryLinkAt (_ : Option Char) (suf : Str) (p : Nat) : Option MdMatch :=
  match suf with
  | '[' :: r =>
      let txt := r.takeWhile fun x => x ≠ ']'
      if txt.isEmpty then none
      else
        match r.drop txt.length with
        | ']' :: '(' :: r2 =>
            let url := r2.takeWhile fun x => x ≠ ')'
            if url.isEmpty then none
            else
              match r2.drop url.length with
              | ')' :: _ =>
                  some ⟨p, p + txt.length + url.length + 4, .link, txt, some url⟩
              | _ => none
        | _ => none
  | _ => none

/-- `regex.exec` loop with the `g` flag: leftmost match at or after the
cursor, then resume at its end (all patterns here consume at least two
characters, so the cursor always advances; the fuel merely bounds the
iteration count by the input length). -/
def scanMatches (tryAt : Option Char → Str → Nat → Option MdMatch) :
    Nat → Option Char → Str → Nat → List MdMatch
  | 0, _, _, _ => []
  | fuel + 1, prev, suf, p =>
      match suf with
      | [] => []
      | c :: rest =>
          match tryAt prev suf p with
          | some m =>
              let consumed := m.stop - p
              m :: scanMatches tryAt fuel (suf.take consumed).getLast?
                    (suf.drop consumed) m.stop
          | none => scanMatches tryAt fuel (some c) rest (p + 1)

/-- Run one pattern over the whole string. -/
def execPattern (tryAt : Option Char → Str → Nat → Option MdMatch)
    (s : Str) : List MdMatch :=
  scanMatches tryAt (s.length + 1) none s 0

/-- The `patterns.forEach` collection phase, in source order. -/
def collectMatches (s : Str) : List MdMatch :=
  execPattern tryCodeAt s ++ execPattern tryBoldStarAt s ++
  execPattern tryBoldUndAt s ++ execPattern tryStrikeAt s ++
  execPattern tryItalicStarAt s ++ execPattern tryItalicUndAt s ++
  execPattern tryLinkAt s

/-- Stable insertion used to model `matches.sort((a, b) => a.start - b.start)`
(ECMAScript `Array.prototype.sort` is stable). -/
def insertByStart (m : MdMatch) : List MdMatch → List MdMatch
  | [] => [m]
  | a :: r => if a.mstart ≤ m.mstart then a :: insertByStart m r else m :: a :: r

/-- Stable sort by start offset. -/
def sortByStart (l : List MdMatch) : List MdMatch :=
  l.foldl (fun acc m => insertByStart m acc) []

/-- Span-intersection test from the overlap-removal loop. -/
def overlapsM (cur ex : MdMatch) : Bool :=
  !(cur.stop ≤ ex.mstart || cur.mstart ≥ ex.stop)

/-- Keep each match only when it overlaps no already-kept match
(part_000:287-304). -/
def removeOverlaps (l : List MdMatch) : List MdMatch :=
  l.foldl
    (fun kept cur => if kept.any fun ex => overlapsM cur ex then kept
                     else kept ++ [cur]) []

/-- The `hasNestedFormatting` regex test (an alternation of the seven
delimiter openers): since a double star contains a star and a double
underscore contains an underscore, the alternation succeeds exactly when
the content contains a star, an underscore, a backtick, an opening square
bracket, or the substring of two tildes. -/
def hasNestedFmt (s : Str) : Bool :=
  s.any (fun c => c = '*' || c = '_' || c = btick || c = '[') ||
  strIncludes s ['~', '~']

end C2N

namespace C2N

/-- Notion's per-item rich text ceiling (`MAX_TEXT_LENGTH`). -/
def MAX_TEXT_LENGTH : Nat := 2000

/-- Helper for `chunkEvery`, structurally recursive on a fuel that starts
at the list length: with a positive `n` every step strictly shortens the
list, so the middle arm is never reached. -/
def chunkEveryAux (n : Nat) : Nat → List α → List (List α)
  | _, [] => []
  | 0, x :: t => [x :: t]
  | fuel + 1, x :: t => (x :: t).take n :: chunkEveryAux n fuel (t.drop (n - 1))

/-- The chunking loop `for (i = 0; i < len; i += n) slice(i, i + n)`
(only ever invoked with a positive `n` in the source). -/
def chunkEvery (n : Nat) (l : List α) : List (List α) :=
  chunkEveryAux n l.length l

/-- Final pass of `parseInlineMarkdown` for one segment: pass it through
when within the ceiling, otherwise re-emit it as ceiling-sized chunks built
with `createRichTextSegment(chunk, segment.annotations, segment.text?.link)`
(part_000:399-414). -/
def splitLongSegment (seg : RichTextSegment) : List RichTextSegment :=
  if seg.content.length ≤ MAX_TEXT_LENGTH then [seg]
  else
    (chunkEvery MAX_TEXT_LENGTH seg.content).map fun c =>
      createRichTextSegment c (seg.annots.getD noAnn) seg.link

/-- The final `richText.forEach` pass over all segments. -/
def splitPass (l : List RichTextSegment) : List RichTextSegment :=
  (l.map splitLongSegment).flatten

/-- Segments emitted for one accepted match (part_000:319-386).  `recur` is
the recursive `parseInlineMarkdown` call used on nested formatting. -/
def segsForMatch (recur : Str → List RichTextSegment) (m : MdMatch) :
    List RichTextSegment :=
  match m.mtype with
  | .code => [createRichTextSegment m.content ⟨false, false, false, true⟩ none]
  | .link =>
      -- the `link` local is `{url: validUrl}` when validation passes, else
      -- stays null and the text degrades to plain
      [createRichTextSegment m.content noAnn
        (validateAndCleanUrl (m.link.getD []))]
  | t =>
      let ann : Annot :=
        match t with
        | .bold => ⟨true, false, false, false⟩
        | .italic => ⟨false, true, false, false⟩
        | _ => ⟨false, false, true, false⟩
      if hasNestedFmt m.content then
        (recur m.content).map fun seg =>
          let merged := annMerge ann (seg.annots.getD noAnn)
          -- `finalLink = link || segment.text?.link`: the parent `link`
          -- local is null for bold/italic/strikethrough, so this is the
          -- child's link; a present url is re-validated, an empty-string
          -- url is falsy-skipped and kept as-is
          let finalLink : Option Str :=
            match seg.link with
            | none => none
            | some u =>
                if u.isEmpty then some u
                else
                  match validateAndCleanUrl u with
                  | none => none
                  | some v => some v
          { content := seg.content, link := finalLink,
            annots := if annIsEmpty merged then none else some merged }
      else [createRichTextSegment m.content ann none]

/-- The fold over `nonOverlapping` building `richText`, including the
trailing plain-text remainder (part_000:307-397). -/
def buildRichAux (recur : Str → List RichTextSegment) (text : Str) :
    List MdMatch → Nat → List RichTextSegment
  | [], lastIndex =>
      if lastIndex < text.length then
        let pt := text.drop lastIndex
        if pt.isEmpty then [] else [createRichTextSegment pt noAnn none]
      else []
  | m :: rest, lastIndex =>
      let gap : List RichTextSegment :=
        if lastIndex < m.mstart then
          let pt := (text.drop lastIndex).take (m.mstart - lastIndex)
          if pt.isEmpty then [] else [createRichTextSegment pt noAnn none]
        else []
      gap ++ segsForMatch recur m ++ buildRichAux recur text rest m.stop

/-- `parseInlineMarkdown`, fuelled.  Every recursive call is on a match's
first capture group, which is strictly shorter than the matched span and
hence than the input, so a fuel of `length + 1` (supplied by
`parseInlineMarkdown` below) is never exhausted; the fuel-0 fallback is
arbitrary. -/
def parseInlineMarkdownF : Nat → Str → List RichTextSegment
  | 0, text => [createRichTextSegment text noAnn none]
  | fuel + 1, text =>
      if text.isEmpty || (jsTrim text).isEmpty then [plainSeg []]
      else
        let nonOverlapping := removeOverlaps (sortByStart (collectMatches text))
        let richText :=
          buildRichAux (fun c => parseInlineMarkdownF fuel c) text
            nonOverlapping 0
        let result := splitPass richText
        if result.length > 0 then result else [plainSeg []]

/-- `parseInlineMarkdown` (part_000:240-417). -/
def parseInlineMarkdown (text : Str) : List RichTextSegment :=
  parseInlineMarkdownF (text.length + 1) text

end C2N

namespace C2N

/-! ## `normalizeLanguage` (part_000:620-705) -/

/-- The `validNotionLanguages` set, in source order. -/
def validNotionLanguages : List Str :=
  ([ "abap", "abc", "agda", "arduino", "ascii art", "assembly", "bash",
     "basic", "bnf", "c", "c#", "c++", "clojure", "coffeescript", "coq",
     "css", "dart", "dhall", "diff", "docker", "ebnf", "elixir", "elm",
     "erlang", "f#", "flow", "fortran", "gherkin", "glsl", "go", "graphql",
     "groovy", "haskell", "hcl", "html", "idris", "java", "javascript",
     "json", "julia", "kotlin", "latex", "less", "lisp", "livescript",
     "llvm ir", "lua", "makefile", "markdown", "markup", "matlab",
     "mathematica", "mermaid", "nix", "notion formula", "objective-c",
     "ocaml", "pascal", "perl", "php", "plain text", "powershell", "prolog",
     "protobuf", "purescript", "python", "r", "racket", "reason", "ruby",
     "rust", "sass", "scala", "scheme", "scss", "shell", "smalltalk",
     "solidity", "sql", "swift", "toml", "typescript", "vb.net", "verilog",
     "vhdl", "visual basic", "webassembly", "xml", "yaml", "java/c/c++/c#"
   ] : List String).map String.data

/-- The `langMap` object literal, entry for entry in source order.  The
literal contains duplicate keys (for example `c#`, `csharp`, `vb`,
`dockerfile`, `makefile`, `powershell`, `shell`, `diff`); under ECMAScript
object-literal semantics the later binding wins, which `jsObjGet` below
reproduces. -/
def langMap : List (Str × Str) :=
  ([ ("js", "javascript"), ("ts", "typescript"), ("py", "python"),
     ("rb", "ruby"), ("sh", "bash"), ("shell", "shell"), ("zsh", "shell"),
     ("yml", "yaml"), ("md", "markdown"), ("cpp", "c++"), ("csharp", "c#"),
     ("cs", "c#"), ("fsharp", "f#"), ("fs", "f#"), ("rs", "rust"),
     ("objc", "objective-c"), ("obj-c", "objective-c"),
     ("vb", "visual basic"), ("tex", "latex"), ("dockerfile", "docker"),
     ("make", "makefile"), ("asm", "assembly"), ("wasm", "webassembly"),
     ("gql", "graphql"), ("hbs", "markup"), ("handlebars", "markup"),
     ("pug", "markup"), ("jade", "markup"), ("text", "plain text"),
     ("txt", "plain text"), ("plaintext", "plain text"),
     ("none", "plain text"), ("", "plain text"), ("f#", "fsharp"),
     ("vb", "vb"), ("vbnet", "vb"), ("csharp", "csharp"), ("c#", "csharp"),
     ("powershell", "powershell"), ("ps1", "powershell"),
     ("dockerfile", "dockerfile"), ("makefile", "makefile"),
     ("cmake", "makefile"), ("diff", "diff"), ("patch", "diff")
   ] : List (String × String)).map fun e => (e.1.data, e.2.data)

/-- Property lookup on an object literal given as an ordered key-value
list: the last binding of a key wins. -/
def jsObjGet (kvs : List (Str × Str)) (k : Str) : Option Str :=
  (kvs.reverse.find? fun e => e.1 = k).map fun e => e.2

/-- `normalizeLanguage` (part_000:620-705).  Every value in `langMap` is a
nonempty string, so the source's truthiness test on `langMap[normalized]`
is key-presence. -/
def normalizeLanguage (lang : Str) : Str :=
  if lang.isEmpty || (jsTrim lang).isEmpty then "plain text".data
  else
    let normalized := jsTrim (lowerStr lang)
    match jsObjGet langMap normalized with
    | some v => v
    | none =>
        if validNotionLanguages.contains normalized then normalized
        else "plain text".data

/-! ## Block creators (part_000:502-777) -/

/-- CRLF-to-LF step of the line-ending normalisation in `createCodeBlock`. -/
def replaceCRLF : Str → Str
  | '\r' :: '\n' :: t => '\n' :: replaceCRLF t
  | c :: t => c :: replaceCRLF t
  | [] => []

/-- Both `replace` steps: CRLF to LF, then bare CR to LF. -/
def normalizeNewlines (s : Str) : Str :=
  (replaceCRLF s).map fun c => if c = '\r' then '\n' else c

def createParagraphBlock (text : Str) : Block :=
  .paragraph (parseInlineMarkdown text)

/-- `createHeadingBlock`: levels are clamped into 1..3. -/
def createHeadingBlock (level : Nat) (text : Str) : Block :=
  .heading (min (max level 1) 3) (parseInlineMarkdown text)

def createBulletedListItem (text : Str) : Block :=
  .bulleted (parseInlineMarkdown text) none

def createNumberedListItem (text : Str) : Block :=
  .numbered (parseInlineMarkdown text) none

def createTodoBlock (text : Str) (checked : Bool) : Block :=
  .todo (parseInlineMarkdown text) checked none

def createQuoteBlock (text : Str) : Block :=
  .quote (parseInlineMarkdown text)

def createDividerBlock : Block := .divider

/-- Notion's code-content ceiling (`MAX_CODE_LENGTH`). -/
def MAX_CODE_LENGTH : Nat := 2000

/-- `createCodeBlock` (part_000:561-613).  The `String(code || '')`
coercion is the identity on the strings supplied by the tokenizer. -/
def createCodeBlock (code : Str) (language : Str) : Block :=
  let normalizedLang := normalizeLanguage language
  let codeString := normalizeNewlines code
  if codeString.length ≤ MAX_CODE_LENGTH then
    .code [plainSeg codeString] normalizedLang
  else
    let truncated := codeString.take (MAX_CODE_LENGTH - 100) ++
      "\n\n... (truncated, original code too long) ...".data
    .code [plainSeg truncated] normalizedLang

/-- `createImageBlock` (part_000:707-770). -/
def createImageBlock (url : Str) (caption : Str) : Block :=
  match validateAndCleanUrl url with
  | none =>
      let imageText :=
        if caption.isEmpty then "Image".data else "Image: ".data ++ caption
      let imageUrl := if url.isEmpty then "N/A".data else url
      let isValidHttpUrl :=
        strStarts imageUrl "http://".data || strStarts imageUrl "https://".data
      let secondSeg : RichTextSegment :=
        if isValidHttpUrl then
          ⟨" - View original image".data, some imageUrl, none⟩
        else
          ⟨" - URL: ".data ++ imageUrl, none, none⟩
      .callout [plainSeg imageText, secondSeg] "🖼️".data
        "yellow_background".data
  | some validUrl =>
      .image validUrl
        (if caption.isEmpty then [] else parseInlineMarkdown caption)

/-- The `colors` table of `createCalloutBlock`. -/
def calloutColors : List (Str × Str) :=
  ([ ("info", "blue_background"), ("warning", "yellow_background"),
     ("note", "gray_background"), ("tip", "green_background"),
     ("success", "green_background"), ("error", "red_background"),
     ("notification", "purple_background"), ("comment", "gray_background")
   ] : List (String × String)).map fun e => (e.1.data, e.2.data)

/-- `createCalloutBlock` (part_000:1023-1043). -/
def createCalloutBlock (content : Str) (emoji : Str) (ctype : Str) : Block :=
  .callout (parseInlineMarkdown content) emoji
    ((jsObjGet calloutColors ctype).getD "gray_background".data)

end C2N

namespace C2N

/-! ## Numbering-artifact cleanup

The thirteen anchored `replace` calls appear verbatim three times in the
source (`parseNestedList` bullet branch 1141-1164, number branch 1209-1231,
and `cleanListContent` inside `buildNestedList` 1336-1373); they are
embedded once here and used at all three sites.  Each pattern is anchored
and deterministic: every repetition body is a character class disjoint from
the character that must follow it, so greedy matching needs no
backtracking. -/

/-- Prefix parser for `\d+`. -/
def pDigits (s : Str) : Option Str :=
  let d := s.takeWhile isDig
  if d.isEmpty then none else some (s.drop d.length)

/-- Prefix parser for a literal character. -/
def pChar (c : Char) (s : Str) : Option Str :=
  match s with
  | x :: t => if x = c then some t else none
  | [] => none

/-- Prefix parser for the class of an ideographic comma or a dot. -/
def pSep (s : Str) : Option Str :=
  match s with
  | x :: t => if x = '、' || x = '.' then some t else none
  | [] => none

/-- Prefix parser for `\s*`. -/
def pWs (s : Str) : Option Str := some (s.dropWhile jsIsSpace)

/-- Prefix parser for `\s+`. -/
def pWs1 (s : Str) : Option Str :=
  let w := s.takeWhile jsIsSpace
  if w.isEmpty then none else some (s.drop w.length)

/-- Prefix parser for `(\d)\1+`: a digit followed by one or more copies of
the same digit. -/
def pDupDigit (s : Str) : Option Str :=
  match s with
  | d :: t =>
      if isDig d then
        let run := t.takeWhile fun x => x = d
        if run.isEmpty then none else some (t.drop run.length)
      else none
  | [] => none

/-- Apply one anchored `replace`: when the prefix rule matches, rebuild the
string from the remainder via `mk` (identity for removal, a prepended `[`
for the bracket rules); otherwise leave the string unchanged. -/
def applyRule (rule : Str → Option Str) (mk : Str → Str) (s : Str) : Str :=
  match rule s with
  | some rem => mk rem
  | none => s

/-- The thirteen substitutions, in source order. -/
def cleanNumbering (content : Str) : Str :=
  let c := applyRule
    (fun s => pDupDigit s >>= pChar '.' >>= pDigits >>= pSep >>= pWs)
    id content
  let c := applyRule
    (fun s => pDupDigit s >>= pChar '.' >>= pDigits >>= pChar '.' >>=
      pDigits >>= pSep >>= pWs) id c
  let c := applyRule
    (fun s => pDupDigit s >>= pChar '.' >>= pDigits >>= pChar '.' >>=
      pDigits >>= pChar '.' >>= pDigits >>= pSep >>= pWs) id c
  let c := applyRule (fun s => pDupDigit s >>= pSep >>= pWs) id c
  let c := applyRule
    (fun s => pDigits s >>= pChar '[' >>= pDigits >>= pSep)
    (fun rem => '[' :: rem) c
  let c := applyRule
    (fun s => pDigits s >>= pChar '[' >>= pDigits >>= pChar '.' >>=
      pDigits >>= pSep) (fun rem => '[' :: rem) c
  let c := applyRule
    (fun s => pDigits s >>= pChar '[' >>= pDigits >>= pChar '.' >>=
      pDigits >>= pChar '.' >>= pDigits >>= pSep)
    (fun rem => '[' :: rem) c
  let c := applyRule
    (fun s => pDupDigit s >>= pChar '[' >>= pDupDigit >>= pSep)
    (fun rem => '[' :: rem) c
  let c := applyRule
    (fun s => pDigits s >>= pChar '.' >>= pDigits >>= pChar '.' >>=
      pDigits >>= pChar '.' >>= pDigits >>= pSep >>= pWs) id c
  let c := applyRule
    (fun s => pDigits s >>= pChar '.' >>= pDigits >>= pChar '.' >>=
      pDigits >>= pSep >>= pWs) id c
  let c := applyRule
    (fun s => pDigits s >>= pChar '.' >>= pDigits >>= pSep >>= pWs) id c
  let c := applyRule (fun s => pDigits s >>= pSep >>= pWs) id c
  let c := applyRule
    (fun s => pDigits s >>= pChar '.' >>= pDigits >>= pWs1 >>= pDigits >>=
      pChar '.' >>= pDigits >>= pSep >>= pWs) id c
  c

/-! ## List parsing (part_000:1054-1482) -/

/-- The three list kinds dispatched by `parseList`. -/
inductive ListKind where
  | task | bullet | number
deriving DecidableEq

/-- One collected list item (`lineIndex` is recorded by the source but
never read downstream and is omitted). -/
structure ListItem where
  indent : Nat
  indentLevel : Int
  content : Str
  checked : Bool
deriving DecidableEq

/-- Semantics of a trailing `\s+(.+)$` after a matched marker: the dot
matches anything but a line terminator, and the greedy whitespace run gives
back at most the single final character when nothing else remains. -/
def matchWsPlusRest (rest : Str) : Option Str :=
  match rest with
  | c :: _ =>
      if jsIsSpace c then
        let t := rest.dropWhile jsIsSpace
        if t.isEmpty then
          match rest.getLast? with
          | some lc =>
              if rest.length ≥ 2 && !(lc = '\n' || lc = '\r') then some [lc]
              else none
          | none => none
        else if t.all (fun c2 => !(c2 = '\n' || c2 = '\r')) then some t
        else none
      else none
  | [] => none

/-- The full task-item regex (indent, checked flag, content). -/
def matchTaskLine (line : Str) : Option (Nat × Bool × Str) :=
  let ws := line.takeWhile jsIsSpace
  match line.drop ws.length with
  | '-' :: ' ' :: '[' :: m :: ']' :: rest =>
      if m = ' ' || m = 'x' then
        (matchWsPlusRest rest).map fun content => (ws.length, m = 'x', content)
      else none
  | _ => none

/-- The bullet-item extraction regex (indent, content). -/
def matchBulletLine (line : Str) : Option (Nat × Str) :=
  let ws := line.takeWhile jsIsSpace
  match line.drop ws.length with
  | c :: rest =>
      if c = '-' || c = '*' || c = '+' then
        (matchWsPlusRest rest).map fun content => (ws.length, content)
      else none
  | [] => none

/-- The numbered-item extraction regex (indent, content). -/
def matchNumberLine (line : Str) : Option (Nat × Str) :=
  let ws := line.takeWhile jsIsSpace
  let r := line.drop ws.length
  let ds := r.takeWhile isDig
  if ds.isEmpty then none
  else
    match r.drop ds.length with
    | '.' :: rest =>
        (matchWsPlusRest rest).map fun content => (ws.length, content)
    | _ => none

/-- The `parseList` bullet test (marker followed by at least one whitespace
character; no content required). -/
def testBulletStart (line : Str) : Bool :=
  let ws := line.takeWhile jsIsSpace
  match line.drop ws.length with
  | c :: c2 :: _ => (c = '-' || c = '*' || c = '+') && jsIsSpace c2
  | _ => false

/-- The `parseList` numbered test. -/
def testNumberStart (line : Str) : Bool :=
  let ws := line.takeWhile jsIsSpace
  let r := line.drop ws.length
  let ds := r.takeWhile isDig
  !ds.isEmpty &&
    (match r.drop ds.length with
     | '.' :: c2 :: _ => jsIsSpace c2
     | _ => false)

/-- The blank-line lookahead regex of `parseNestedList` (part_000:1261):
an alternation of the three marker shapes followed by whitespace; returns
the indent width on success. -/
def nextListItemIndent (line : Str) : Option Nat :=
  let ws := line.takeWhile jsIsSpace
  let r := line.drop ws.length
  let alt1 : Bool :=
    match r with
    | c :: c2 :: _ => (c = '-' || c = '*' || c = '+') && jsIsSpace c2
    | _ => false
  let alt2 : Bool :=
    let ds := r.takeWhile isDig
    !ds.isEmpty &&
      (match r.drop ds.length with
       | '.' :: c2 :: _ => jsIsSpace c2
       | _ => false)
  let alt3 : Bool :=
    match r with
    | '-' :: rest =>
        (match rest.dropWhile jsIsSpace with
         | '[' :: m :: ']' :: c2 :: _ => (m = ' ' || m = 'x') && jsIsSpace c2
         | _ => false)
    | _ => false
  if alt1 || alt2 || alt3 then some ws.length else none

/-- Per-kind line match of the `parseNestedList` collection loop; the
bullet and number branches run the numbering cleanup on the captured
content, the task branch does not. -/
def listLineMatchClean (kind : ListKind) (line : Str) :
    Option (Nat × Bool × Str) :=
  match kind with
  | .task => matchTaskLine line
  | .bullet =>
      (matchBulletLine line).map fun p => (p.1, false, cleanNumbering p.2)
  | .number =>
      (matchNumberLine line).map fun p => (p.1, false, cleanNumbering p.2)

/-- The item-collection loop of `parseNestedList` (part_000:1104-1302).
The cursor advances by one on every iteration, so a fuel of `lines.length`
suffices. -/
def parseNestedListScan (lines : List Str) (kind : ListKind) :
    Nat → Nat → Option Nat → List ListItem → List ListItem × Nat
  | 0, i, _, acc => (acc, i)
  | fuel + 1, i, baseIndent, acc =>
      if i < lines.length then
        let line := lines.getD i []
        match listLineMatchClean kind line with
        | some (indent, checked, content) =>
            let base := baseIndent.getD indent
            let indentLevel := Int.fdiv ((indent : Int) - (base : Int)) 2
            parseNestedListScan lines kind fuel (i + 1) (some base)
              (acc ++ [⟨indent, indentLevel, content, checked⟩])
        | none =>
            if (jsTrim line).isEmpty && i + 1 < lines.length then
              match nextListItemIndent (lines.getD (i + 1) []) with
              | some nextIndent =>
                  if baseIndent = none || nextIndent ≥ baseIndent.getD 0 then
                    parseNestedListScan lines kind fuel (i + 1) baseIndent acc
                  else (acc, i)
              | none => (acc, i)
            else (acc, i)
      else (acc, i)

/-- Tree node of `buildNestedList` (part_000:1391). -/
inductive LNode where
  | mk (item : ListItem) (children : List LNode)

/-- Pop every stack entry whose level is at least the incoming level,
attaching each popped node to the next entry down (or to the root list).
In the source a node is attached to its parent when created and its
children array is mutated later; attaching on pop yields the identical
final tree. -/
def popWhileLevel (lvl : Int) :
    List (ListItem × List LNode) → List LNode →
    List (ListItem × List LNode) × List LNode
  | [], roots => ([], roots)
  | (it, ch) :: rest, roots =>
      if it.indentLevel ≥ lvl then
        let n := LNode.mk it ch
        match rest with
        | [] => popWhileLevel lvl [] (roots ++ [n])
        | (it2, ch2) :: r2 => popWhileLevel lvl ((it2, ch2 ++ [n]) :: r2) roots
      else ((it, ch) :: rest, roots)
termination_by stack _ => stack.length
decreasing_by all_goals simp_arith

/-- Flush the remaining stack at the end of the item fold. -/
def flushStack :
    List (ListItem × List LNode) → List LNode → List LNode
  | [], roots => roots
  | (it, ch) :: rest, roots =>
      let n := LNode.mk it ch
      match rest with
      | [] => roots ++ [n]
      | (it2, ch2) :: r2 => flushStack ((it2, ch2 ++ [n]) :: r2) roots
termination_by stack _ => stack.length
decreasing_by all_goals simp_arith

/-- The stack fold of part_000:1395-1420. -/
def buildTree (items : List ListItem) : List LNode :=
  let st := items.foldl
    (fun st item =>
      let (stack, roots) := popWhileLevel item.indentLevel st.1 st.2
      ((item, []) :: stack, roots))
    ([], [])
  flushStack st.1 st.2

/-- `createListItemBlock` inside `buildNestedList` (part_000:1378-1388). -/
def createListItemBlock (kind : ListKind) (content : Str) (checked : Bool) :
    Block :=
  let cleanContent := cleanNumbering content
  match kind with
  | .task => createTodoBlock cleanContent checked
  | .bullet => createBulletedListItem cleanContent
  | .number => createNumberedListItem cleanContent

/-- Install a `children` array on a list-item block
(`block[blockType].children = [...]`). -/
def blockWithChildren (b : Block) (ch : List Block) : Block :=
  match b with
  | .bulleted r _ => .bulleted r (some ch)
  | .numbered r _ => .numbered r (some ch)
  | .todo r k _ => .todo r k (some ch)
  | other => other

mutual

/-- `flattenTreeToBlocks` (part_000:1432-1469), one node. -/
def flattenNode (kind : ListKind) (depth : Nat) (n : LNode) : List Block :=
  match n with
  | .mk item children =>
      let content :=
        if depth ≥ 3 then
          "[ind".data ++ natToStr (depth + 1) ++ "] ".data ++ item.content
        else item.content
      let block := createListItemBlock kind content item.checked
      if depth < 2 && !children.isEmpty then
        [blockWithChildren block (flattenNodes kind (depth + 1) children)]
      else if !children.isEmpty then
        block :: flattenNodes kind (depth + 1) children
      else [block]

/-- `flattenTreeToBlocks`, a node list. -/
def flattenNodes (kind : ListKind) (depth : Nat) : List LNode → List Block
  | [] => []
  | n :: rest => flattenNode kind depth n ++ flattenNodes kind depth rest

end

/-- `buildNestedList` (part_000:1328-1482); the `baseIndent` argument is
accepted but unused, as in the source. -/
def buildNestedList (items : List ListItem) (kind : ListKind)
    (_baseIndent : Option Nat) : List Block :=
  if items.isEmpty then [] else flattenNodes kind 0 (buildTree items)

/-- `parseNestedList` (part_000:1094-1318): collect the items, then build
and flatten the tree.  Returns the blocks and the next line index. -/
def parseNestedList (lines : List Str) (startIndex : Nat) (kind : ListKind) :
    List Block × Nat :=
  let (items, nextIndex) :=
    parseNestedListScan lines kind lines.length startIndex none []
  let base := (items.head?).map fun it => it.indent
  (buildNestedList items kind base, nextIndex)

/-- `parseList` (part_000:1054-1084). -/
def parseList (lines : List Str) (startIndex : Nat) :
    Option (List Block × Nat) :=
  let line := lines.getD startIndex []
  if (matchTaskLine line).isSome then
    some (parseNestedList lines startIndex .task)
  else if testBulletStart line then
    some (parseNestedList lines startIndex .bullet)
  else if testNumberStart line then
    some (parseNestedList lines startIndex .number)
  else none

end C2N

namespace C2N

/-! ## Table parsing (part_000:788-957) -/

/-- Character class of the separator-row patterns: whitespace, dash, colon. -/
def isSepClassChar (c : Char) : Bool := jsIsSpace c || c = '-' || c = ':'

/-- No line terminator in the string (what a repetition of the regex dot
can span). -/
def noLineTerm (s : Str) : Bool := s.all fun c => !(c = '\n' || c = '\r')

/-- The two separator-row regexes of `parseTable` (part_000:799-800),
decided via the pipe-split of the line: the first pattern is a leading
pipe, one or more nonempty class segments separated by pipes, a final pipe
and optional trailing whitespace; the second is two or more nonempty class
segments separated by pipes with no outer pipes. -/
def isSeparatorRow (trimmed : Str) : Bool :=
  let parts := splitOnChar '|' trimmed
  let p1 :=
    parts.length ≥ 3 && (parts.headD []).isEmpty &&
    ((parts.drop 1).dropLast.all fun seg =>
      !seg.isEmpty && seg.all isSepClassChar) &&
    (parts.getLastD []).all jsIsSpace
  let p2 :=
    parts.length ≥ 2 &&
    parts.all fun seg => !seg.isEmpty && seg.all isSepClassChar
  p1 || p2

/-- The line-collection loop of `parseTable` (part_000:793-829): skip
separator rows (recording that one was seen), collect pipe-containing rows
trimmed, stop at the first other line — returning `none` when it appears
before any row was collected.  A pipe-containing line always has at least
one split cell, so the source's `cellCount >= 1` test always passes. -/
def parseTableCollect (lines : List Str) :
    Nat → Nat → List Str → Bool → Option (List Str × Bool × Nat)
  | 0, i, tableLines, foundSep => some (tableLines, foundSep, i)
  | fuel + 1, i, tableLines, foundSep =>
      if i < lines.length then
        let trimmed := jsTrim (lines.getD i [])
        if isSeparatorRow trimmed then
          parseTableCollect lines fuel (i + 1) tableLines true
        else if strIncludes trimmed ['|'] then
          parseTableCollect lines fuel (i + 1) (tableLines ++ [trimmed])
            foundSep
        else if tableLines.length > 0 then some (tableLines, foundSep, i)
        else none
      else some (tableLines, foundSep, i)

/-- The trailing-empty-cell pop loop of `parseTableRow`
(part_000:890-892). -/
def popTrailingEmpties (cells : List Str) : List Str :=
  if 1 < cells.length ∧ cells.getLastD ['|'] = [] ∧
      cells.dropLast.getLastD ['|'] = [] then
    popTrailingEmpties cells.dropLast
  else cells
termination_by cells.length
decreasing_by simp [List.length_dropLast]; omega

/-- `parseTableRow` (part_000:865-895). -/
def parseTableRow (row : Str) : List Str :=
  if row.isEmpty || (jsTrim row).isEmpty then []
  else
    let cleaned := jsTrim row
    let cleaned := if strStarts cleaned ['|'] then cleaned.drop 1 else cleaned
    let cleaned := if strEnds cleaned ['|'] then cleaned.dropLast else cleaned
    let cells := (splitOnChar '|' cleaned).map jsTrim
    let cells := popTrailingEmpties cells
    if cells.length > 0 then cells else [[]]

/-- `parseTable` (part_000:788-858). -/
def parseTable (lines : List Str) (startIndex : Nat) :
    Option (List Str × List (List Str) × Nat) :=
  match parseTableCollect lines (lines.length + 1) startIndex [] false with
  | none => none
  | some (tableLines, foundSep, i) =>
      if tableLines.isEmpty then none
      else
        let headers := parseTableRow (tableLines.headD [])
        if headers.isEmpty then none
        else
          let rows := (tableLines.drop 1).map parseTableRow
          if rows.isEmpty && !foundSep && tableLines.length = 1 then none
          else some (headers, rows, i)

/-- `createTableBlock` (part_000:903-957). -/
def createTableBlock (headers : List Str) (rows : List (List Str)) : Block :=
  let tableWidth := headers.length
  let normalizedRows := rows.map fun row =>
    (row ++ List.replicate (tableWidth - row.length) []).take tableWidth
  let mkCells : List Str → List (List RichTextSegment) := fun cells =>
    cells.map fun cell =>
      let richText := parseInlineMarkdown cell
      if richText.length > 0 then richText else [plainSeg []]
  .table tableWidth true false (mkCells headers :: normalizedRows.map mkCells)

/-! ## Blockquote and callout parsing (part_000:968-1014) -/

/-- Membership in the emoji character classes of the callout regex
(single code points under the `u` flag). -/
def isCalloutEmoji (c : Char) : Bool :=
  (0x1F300 ≤ c.toNat && c.toNat ≤ 0x1F9FF) ||
  (0x2600 ≤ c.toNat && c.toNat ≤ 0x26FF) ||
  (0x2700 ≤ c.toNat && c.toNat ≤ 0x27BF)

/-- The `calloutTypes` table (part_000:987-996).  The first two keys carry
a variation selector and therefore consist of two code points; the regex
capture is always a single code point, so those entries can never be hit —
reproduced as in the source. -/
def calloutTypes : List (Str × Str) :=
  ([ ("ℹ️", "info"), ("⚠️", "warning"), ("📝", "note"), ("💡", "tip"),
     ("✅", "success"), ("❌", "error"), ("🔔", "notification"),
     ("💬", "comment") ] : List (String × String)).map
    fun e => (e.1.data, e.2.data)

/-- Semantics of a trailing `\s*(.+)$`: like `matchWsPlusRest` but the
whitespace run may be empty. -/
def matchWsStarRest (rest : Str) : Option Str :=
  let t := rest.dropWhile jsIsSpace
  if t.isEmpty then
    match rest.getLast? with
    | some lc => if !(lc = '\n' || lc = '\r') then some [lc] else none
    | none => none
  else if noLineTerm t then some t else none

/-- Result object of `parseBlockquote`; `emoji` and `ctype` are only
meaningful when `isCallout` is true (the source omits the keys). -/
structure QuoteData where
  isCallout : Bool
  content : Str
  emoji : Str
  ctype : Str
  nextIndex : Nat

/-- The quote-line collection loop (part_000:972-975). -/
def collectQuoteLines (lines : List Str) :
    Nat → Nat → List Str → List Str × Nat
  | 0, i, acc => (acc, i)
  | fuel + 1, i, acc =>
      if i < lines.length && strStarts (lines.getD i []) "> ".data then
        collectQuoteLines lines fuel (i + 1) (acc ++ [(lines.getD i []).drop 2])
      else (acc, i)

/-- `parseBlockquote` (part_000:968-1014). -/
def parseBlockquote (lines : List Str) (startIndex : Nat) : QuoteData :=
  let r := collectQuoteLines lines (lines.length + 1) startIndex []
  let content := jsTrim (joinWith ['\n'] r.1)
  match content with
  | c :: rest =>
      if isCalloutEmoji c then
        match matchWsStarRest rest with
        | some text =>
            let emoji := [c]
            let ctype := (jsObjGet calloutTypes emoji).getD "info".data
            ⟨true, text, emoji, ctype, r.2⟩
        | none => ⟨false, content, [], [], r.2⟩
      else ⟨false, content, [], [], r.2⟩
  | [] => ⟨false, content, [], [], r.2⟩

end C2N

namespace C2N

/-! ## The block tokenizer: `markdownToNotionBlocks` (part_000:67-229) -/

/-- Three backticks, the fence prefix tested by the tokenizer. -/
def fence3 : Str := List.replicate 3 btick

/-- The interior loop of the fenced-code branch (part_000:103-119):
consume lines until one whose stripped form is exactly three backticks,
removing the opening line's indentation from interior lines that carry
it. -/
def scanFence (lines : List Str) (indent : Str) :
    Nat → Nat → List Str → List Str × Nat
  | 0, i, acc => (acc, i)
  | fuel + 1, i, acc =>
      if i < lines.length then
        let currentLine := lines.getD i []
        let currentTrimmed := trimStart currentLine
        if strStarts currentTrimmed fence3 && jsTrim currentTrimmed = fence3
        then (acc, i)
        else
          let pushed :=
            if !indent.isEmpty && strStarts currentLine indent then
              currentLine.drop indent.length
            else currentLine
          scanFence lines indent fuel (i + 1) (acc ++ [pushed])
      else (acc, i)

/-- The ATX-heading regex (one to six hashes, then whitespace, then
content): returns the hash count and the captured text. -/
def matchHeading (line : Str) : Option (Nat × Str) :=
  let hashes := line.takeWhile fun c => c = '#'
  let k := hashes.length
  if 1 ≤ k && k ≤ 6 then
    (matchWsPlusRest (line.drop k)).map fun text => (k, text)
  else none

/-- The horizontal-rule regex: the whole line is three or more dashes, or
underscores, or stars. -/
def matchHr (line : Str) : Bool :=
  line.length ≥ 3 &&
    (line.all (fun c => c = '-') || line.all (fun c => c = '_') ||
     line.all fun c => c = '*')

/-- Index of the first occurrence of `needle` in `hay`. -/
def findFirstSub (needle : Str) : Str → Option Nat := fun hay =>
  if needle.isPrefixOf hay then some 0
  else
    match hay with
    | [] => none
    | _ :: t => (findFirstSub needle t).map fun j => j + 1

/-- The standalone-image regex (lazy alt up to the first bracket-paren
separator, lazy url forced up to the final closing paren by the end
anchor); both captures must be free of line terminators. -/
def matchImage (line : Str) : Option (Str × Str) :=
  match line with
  | '!' :: '[' :: rest =>
      match findFirstSub "](".data rest with
      | some j =>
          let alt := rest.take j
          let after := rest.drop (j + 2)
          if after.getLast? = some ')' then
            let url := after.dropLast
            if noLineTerm alt && noLineTerm url then some (alt, url)
            else none
          else none
      | none => none
  | _ => none

/-- The first disjunct of `looksLikeTableRow` (optional whitespace, a pipe,
one or more dot-matchable characters, a pipe, optional whitespace); the
second disjunct of the source is equivalent to the line containing a pipe
and splitting into at least two parts. -/
def looksLikeTableRow (line : Str) : Bool :=
  (let t := trimStart line
   strStarts t ['|'] &&
     (let u := trimEnd t
      strEnds u ['|'] && u.length ≥ 3 &&
        (let mid := (u.drop 1).dropLast
         !mid.isEmpty && noLineTerm mid))) ||
  (strIncludes line ['|'] && (splitOnChar '|' line).length ≥ 2)

/-- The dispatch loop of `markdownToNotionBlocks` (part_000:78-226).  The
flowchart-arrow heuristic (part_000:205-221) pushes
`createParagraphBlock(line)` exactly like the default branch, so the two
branches coincide and are not distinguished here.  The source loop makes
progress on every branch except a degenerate `parseList` result returning
an unchanged index (on which the source would spin forever producing
nothing); the fuel bounds the iteration count. -/
def mdLoop (lines : List Str) : Nat → Nat → List Block → List Block
  | 0, _, acc => acc
  | fuel + 1, i, acc =>
      if i < lines.length then
        let line := lines.getD i []
        if (jsTrim line).isEmpty then mdLoop lines fuel (i + 1) acc
        else
          let trimmedLine := trimStart line
          let leadingSpaces := line.length - trimmedLine.length
          if strStarts trimmedLine fence3 then
            let afterFence := jsTrim (trimmedLine.drop 3)
            let language :=
              if afterFence.isEmpty then "plain text".data else afterFence
            let indent := line.take leadingSpaces
            let fr := scanFence lines indent (lines.length + 1) (i + 1) []
            let codeContent := joinWith ['\n'] fr.1
            mdLoop lines fuel (fr.2 + 1)
              (acc ++ [createCodeBlock codeContent language])
          else
            match matchHeading line with
            | some (level, text) =>
                mdLoop lines fuel (i + 1) (acc ++ [createHeadingBlock level text])
            | none =>
              if matchHr line then
                mdLoop lines fuel (i + 1) (acc ++ [createDividerBlock])
              else
                let tableOpt :=
                  if strIncludes line ['|'] && looksLikeTableRow line then
                    match parseTable lines i with
                    | some (h, r, ni) =>
                        if h.length > 0 then some (h, r, ni) else none
                    | none => none
                  else none
                match tableOpt with
                | some (h, r, ni) =>
                    mdLoop lines fuel ni (acc ++ [createTableBlock h r])
                | none =>
                  if strStarts line "> ".data then
                    let qd := parseBlockquote lines i
                    let blk :=
                      if qd.isCallout then
                        createCalloutBlock qd.content qd.emoji qd.ctype
                      else createQuoteBlock qd.content
                    mdLoop lines fuel qd.nextIndex (acc ++ [blk])
                  else
                    match parseList lines i with
                    | some (listBlocks, nextIndex) =>
                        mdLoop lines fuel nextIndex (acc ++ listBlocks)
                    | none =>
                      match matchImage line with
                      | some (alt, url) =>
                          mdLoop lines fuel (i + 1)
                            (acc ++ [createImageBlock url alt])
                      | none =>
                          mdLoop lines fuel (i + 1)
                            (acc ++ [createParagraphBlock line])
      else acc

/-- `markdownToNotionBlocks` (part_000:67-229). -/
def markdownToNotionBlocks (markdown : Str) : List Block :=
  let lines := splitOnChar '\n' markdown
  mdLoop lines (lines.length + 1) 0 []

end C2N

namespace C2N

/-! ## HTML-to-Markdown stage (src/content/content-script.js)

Only the two custom rules the claims depend on are embedded: the code-block
serializer (content-script.js:190-252) and the table grid resolver
(content-script.js:256-349). -/

/-- The fence-growing loop: starting at four, increase the backtick count
while the content still contains a run of that length.  A run longer than
the content cannot occur in it, so the loop stops within `length` steps of
its start; the fuel bounds exactly that. -/
def fenceLenLoop (content : Str) : Nat → Nat → Nat
  | 0, n => n
  | fuel + 1, n =>
      if strIncludes content (List.replicate n btick) then
        fenceLenLoop content fuel (n + 1)
      else n

/-- Fence selection (content-script.js:240-248). -/
def codeFenceFor (codeContent : Str) : Str :=
  if strIncludes codeContent fence3 then
    List.replicate (fenceLenLoop codeContent (codeContent.length + 1) 4) btick
  else fence3

/-- The replacement string of the `confluenceCodeBlock` rule
(content-script.js:250). -/
def serializeCodeBlock (codeContent language : Str) : Str :=
  let fence := codeFenceFor codeContent
  "\n\n".data ++ fence ++ (if language.isEmpty then [] else ' ' :: language) ++
    "\n".data ++ codeContent ++ "\n".data ++ fence ++ "\n\n".data

/-- A table cell as the `confluenceTable` rule reads it: its text content
and the `rowspan`/`colspan` attributes after `parseInt` (`none` = attribute
absent or non-numeric, which `parseInt(...) || 1` turns into 1; negative
attribute values are outside the modelled scope). -/
structure TCell where
  text : Str
  rowspanAttr : Option Nat
  colspanAttr : Option Nat

/-- The `parseInt(attr) || 1` normalisation (0 and NaN are falsy). -/
def effSpan (a : Option Nat) : Nat :=
  match a with
  | none => 1
  | some 0 => 1
  | some k => k

/-- Helper for `collapseNlRuns`; the flag records being inside a newline
run whose single replacement space was already emitted. -/
def collapseNlAux : Bool → Str → Str
  | _, [] => []
  | inRun, c :: t =>
      if c = '\n' then
        if inRun then collapseNlAux true t else ' ' :: collapseNlAux true t
      else c :: collapseNlAux false t

/-- Collapse each newline run into a single space (`replace(/\n+/g,' ')`). -/
def collapseNlRuns (s : Str) : Str := collapseNlAux false s

/-- Helper for `collapseWsRuns`, as for `collapseNlAux`. -/
def collapseWsAux : Bool → Str → Str
  | _, [] => []
  | inRun, c :: t =>
      if jsIsSpace c then
        if inRun then collapseWsAux true t else ' ' :: collapseWsAux true t
      else c :: collapseWsAux false t

/-- Collapse each whitespace run into a single space
(`replace(/\s+/g,' ')`). -/
def collapseWsRuns (s : Str) : Str := collapseWsAux false s

/-- The cell-text cleanup of `confluenceTable` (content-script.js:302-305):
trim, collapse newline runs, collapse whitespace runs, escape pipes, and
fall back to a single space when empty. -/
def cleanCellText (text : Str) : Str :=
  let t := jsTrim text
  let t := collapseNlRuns t
  let t := collapseWsRuns t
  let t := (t.map fun c => if c = '|' then ['\\', '|'] else [c]).flatten
  if t.isEmpty then [' '] else t

/-- Read one grid position (`null` outside the filled area). -/
def gridGet (g : List (List (Option Str))) (r c : Nat) : Option Str :=
  (g.getD r []).getD c none

/-- Write one grid position. -/
def gridSet (g : List (List (Option Str))) (r c : Nat) (v : Option Str) :
    List (List (Option Str)) :=
  g.set r ((g.getD r []).set c v)

/-- Helper for `advanceCol`: the fuel is the distance to the grid edge, so
running out of fuel is exactly the cursor reaching `colCount`. -/
def advanceColAux (g : List (List (Option Str))) (rowIndex : Nat) :
    Nat → Nat → Nat
  | 0, colIndex => colIndex
  | fuel + 1, colIndex =>
      if gridGet g rowIndex colIndex ≠ none then
        advanceColAux g rowIndex fuel (colIndex + 1)
      else colIndex

/-- Advance the column cursor past already-filled positions while it is
inside the grid (content-script.js:292-294). -/
def advanceCol (g : List (List (Option Str))) (rowIndex colCount : Nat)
    (colIndex : Nat) : Nat :=
  advanceColAux g rowIndex (colCount - colIndex) colIndex

/-- Fill the span of one cell (content-script.js:307-318): the loop bounds
are the span and the grid edge; the anchor position receives the text,
every other spanned position the single-space filler. -/
def fillSpan (g : List (List (Option Str))) (numRows colCount : Nat)
    (rowIndex colIndex : Nat) (rowspan colspan : Nat) (text : Str) :
    List (List (Option Str)) :=
  (List.range (min rowspan (numRows - rowIndex))).foldl
    (fun g r =>
      (List.range (min colspan (colCount - colIndex))).foldl
        (fun g c =>
          gridSet g (rowIndex + r) (colIndex + c)
            (some (if r = 0 ∧ c = 0 then text else [' '])))
        g)
    g

/-- Place the cells of one row left to right (content-script.js:290-321).
The `return` inside the `forEach` when the cursor has run off the grid
skips only the current cell. -/
def placeRowCells (numRows colCount rowIndex : Nat) :
    List TCell → Nat → List (List (Option Str)) → List (List (Option Str))
  | [], _, g => g
  | cell :: rest, colIndex, g =>
      let colIndex := advanceCol g rowIndex colCount colIndex
      if colIndex ≥ colCount then
        placeRowCells numRows colCount rowIndex rest colIndex g
      else
        let rowspan := effSpan cell.rowspanAttr
        let colspan := effSpan cell.colspanAttr
        let text := cleanCellText cell.text
        let g := fillSpan g numRows colCount rowIndex colIndex rowspan colspan
          text
        placeRowCells numRows colCount rowIndex rest (colIndex + colspan) g

/-- The dense grid built by `confluenceTable` (content-script.js:269-322):
the column count is the span-weighted width of the first row, the grid is
initialised to `null`, and each row's cells are placed in order. -/
def resolveTableGrid (rows : List (List TCell)) : List (List (Option Str)) :=
  let columnCount := ((rows.headD []).map fun cell => effSpan cell.colspanAttr).sum
  let initGrid :=
    List.replicate rows.length (List.replicate columnCount (none : Option Str))
  (rows.enum).foldl
    (fun g p => placeRowCells rows.length columnCount p.1 p.2 0 g)
    initGrid

/-- The Markdown emission of `confluenceTable` (content-script.js:331-347):
each grid row becomes a pipe row with `null` cells rendered as a space, and
a dash separator follows the first row. -/
def confluenceTableMarkdown (rows : List (List TCell)) : Str :=
  if rows.isEmpty then []
  else
    let columnCount :=
      ((rows.headD []).map fun cell => effSpan cell.colspanAttr).sum
    let grid := resolveTableGrid rows
    (grid.enum.foldl
      (fun md p =>
        let cellContents := p.2.map fun c => c.getD [' ']
        let md := md ++ "| ".data ++ joinWith " | ".data cellContents ++
          " |\n".data
        if p.1 = 0 then
          md ++ ['|'] ++ (List.replicate columnCount " --- |".data).flatten ++
            ['\n']
        else md)
      "\n\n".data) ++ ['\n']

end C2N

namespace C2N

/-! ## Page assembly (part_000:1486-1814)

The two Notion endpoints reached through `notionRequest` are modelled as a
caller-supplied behaviour `api : NotionCall → Except Str PageRef` (the
append endpoint's response body is unused by the source, so a `PageRef`
result is simply discarded there).  The API token rides the transport
headers and does not influence the modelled payloads.  Each run returns its
result, the ordered trace of calls issued, and the ordered
`sendProgressUpdate` reports. -/

/-- The created page's `id` and `url` as read from the create response. -/
structure PageRef where
  id : Str
  url : Str
deriving DecidableEq

/-- One Notion API request issued by the page assembler. -/
inductive NotionCall where
  | createPage (parentPageId : Str) (title : Str) (children : List Block)
  | appendChildren (pageId : Str) (children : List Block)

/-- Notion's children-per-request ceiling (`MAX_BLOCKS_PER_REQUEST`). -/
def MAX_BLOCKS_PER_REQUEST : Nat := 100

/-- Combined run result: outcome, issued calls in order, progress reports
in order. -/
structure RunOut where
  result : Except Str PageRef
  calls : List NotionCall
  progress : List (Nat × Str)

/-- The chunked fallback loop of `appendBlocksToPage` (part_000:1637-1645),
stopping at the first failing request. -/
def appendChunksRun (api : NotionCall → Except Str PageRef) (pageId : Str) :
    List (List Block) → Except Str Unit × List NotionCall
  | [] => (.ok (), [])
  | chunk :: rest =>
      let c := NotionCall.appendChildren pageId chunk
      match api c with
      | .error e => (.error e, [c])
      | .ok _ =>
          let r := appendChunksRun api pageId rest
          (r.1, c :: r.2)

/-- `appendBlocksToPage` (part_000:1622-1646): one request when the blocks
fit the ceiling, otherwise the defensive re-chunking loop. -/
def appendBlocksRun (api : NotionCall → Except Str PageRef) (pageId : Str)
    (blocks : List Block) : Except Str Unit × List NotionCall :=
  if blocks.length ≤ MAX_BLOCKS_PER_REQUEST then
    let c := NotionCall.appendChildren pageId blocks
    match api c with
    | .ok _ => (.ok (), [c])
    | .error e => (.error e, [c])
  else appendChunksRun api pageId (chunkEvery MAX_BLOCKS_PER_REQUEST blocks)

/-- The remaining-blocks loop of `createNotionPage` (part_000:1596-1606):
per chunk, report progress then append.  The source computes the
percentage as `80 + Math.floor((chunkIndex / totalChunks) * 15)` in
floating point; for the small integer ratios arising here this coincides
with the integer floor division used below (exactly so when
`totalChunks = 1`, the only case the claims evaluate). -/
def appendLoop (api : NotionCall → Except Str PageRef) (pageId : Str)
    (totalChunks : Nat) :
    Nat → List (List Block) → Except Str Unit × List NotionCall × List (Nat × Str)
  | _, [] => (.ok (), [], [])
  | chunkIndex, chunk :: rest =>
      let pct := 80 + (chunkIndex * 15) / totalChunks
      let pEntry := (pct, "Uploading blocks ".data ++ natToStr chunkIndex ++
        "/".data ++ natToStr totalChunks ++ "...".data)
      let ar := appendBlocksRun api pageId chunk
      match ar.1 with
      | .error e => (.error e, ar.2, [pEntry])
      | .ok _ =>
          let r := appendLoop api pageId totalChunks (chunkIndex + 1) rest
          (r.1, ar.2 ++ r.2.1, pEntry :: r.2.2)

/-- The source-link callout unshifted by `createNotionPage`
(part_000:1551-1571). -/
def sourceCalloutBlock (sourceUrl : Str) : Block :=
  .callout
    [⟨"Imported from Confluence: ".data, none, none⟩,
     ⟨sourceUrl, some sourceUrl, none⟩]
    "📄".data "gray_background".data

/-- The placeholder paragraph pushed when conversion yields no blocks
(part_000:1540-1546). -/
def placeholderBlock : Block :=
  .paragraph [plainSeg "(Content could not be converted)".data]

/-- `createNotionPage` from the converted block list onward
(part_000:1526-1614): placeholder when empty, optional source callout
unshift, split at the ceiling, create call, then the append loop.  The
`Array.isArray` guard always passes for the converter's output and is
omitted. -/
def createNotionPageCore (api : NotionCall → Except Str PageRef)
    (title parentPageId : Str) (blocks0 : List Block)
    (sourceUrl : Option Str) : RunOut :=
  let blocks1 := if blocks0.isEmpty then [placeholderBlock] else blocks0
  let blocks2 :=
    match sourceUrl with
    | some u => sourceCalloutBlock u :: blocks1
    | none => blocks1
  let initialBlocks := blocks2.take MAX_BLOCKS_PER_REQUEST
  let remainingBlocks := blocks2.drop MAX_BLOCKS_PER_REQUEST
  let pre : List (Nat × Str) :=
    [(60, "Converting Markdown to Notion blocks...".data),
     (65, "Generated ".data ++ natToStr blocks1.length ++ " blocks".data),
     (70, "Creating page in Notion...".data)]
  let createCall := NotionCall.createPage parentPageId title initialBlocks
  match api createCall with
  | .error e => ⟨.error e, [createCall], pre⟩
  | .ok page =>
      let totalChunks := (remainingBlocks.length + 99) / 100
      let ap := appendLoop api page.id totalChunks 1
        (chunkEvery MAX_BLOCKS_PER_REQUEST remainingBlocks)
      let prog := pre ++ [(80, "Page created, uploading content...".data)] ++
        ap.2.2
      match ap.1 with
      | .error e => ⟨.error e, createCall :: ap.2.1, prog⟩
      | .ok _ =>
          ⟨.ok ⟨page.id, page.url⟩, createCall :: ap.2.1,
            prog ++ [(95, "Finalizing...".data)]⟩

/-- `createNotionPage` (part_000:1524-1614), from the raw Markdown. -/
def createNotionPageRun (api : NotionCall → Except Str PageRef)
    (title parentPageId markdown : Str) (sourceUrl : Option Str) : RunOut :=
  createNotionPageCore api title parentPageId
    (markdownToNotionBlocks markdown) sourceUrl

/-! ## Page-id extraction (part_000:1714-1760) -/

/-- `formatNotionId` (part_000:1754-1760). -/
def formatNotionId (id : Str) : Str :=
  let cleanId := id.filter fun c => c ≠ '-'
  if cleanId.length ≠ 32 then id
  else
    cleanId.take 8 ++ ['-'] ++ ((cleanId.drop 8).take 4) ++ ['-'] ++
      ((cleanId.drop 12).take 4) ++ ['-'] ++ ((cleanId.drop 16).take 4) ++
      ['-'] ++ cleanId.drop 20

/-- The pathname regex with the leading dash: matches exactly when the
last 32 characters are hex and are preceded by a dash; the capture is
those 32 characters. -/
def matchDashHex32 (s : Str) : Option Str :=
  if s.length ≥ 33 then
    let tail := s.drop (s.length - 32)
    if tail.all isHexDig && s.getD (s.length - 33) 'x' = '-' then some tail
    else none
  else none

/-- The fallback pathname regex without the dash. -/
def hexTail32 (s : Str) : Option Str :=
  if s.length ≥ 32 then
    let tail := s.drop (s.length - 32)
    if tail.all isHexDig then some tail else none
  else none

/-- `extractAndValidatePageId` (part_000:1714-1747).  The inner throw of
`Could not extract page ID from URL` is caught by the surrounding
try/catch and resurfaced as the URL-format error, as in the source. -/
def extractAndValidatePageId (input : Str) : Except Str Str :=
  if input.isEmpty || (jsTrim input).isEmpty then
    .error "Parent page ID is required".data
  else
    let trimmed := jsTrim input
    if strStarts trimmed "http://".data || strStarts trimmed "https://".data
    then
      match jsUrlParse trimmed with
      | none => .error "Invalid Notion page URL format".data
      | some u =>
          match
            (match matchDashHex32 u.pathname with
             | some c => some c
             | none => hexTail32 u.pathname) with
          | some c => .ok (formatNotionId c)
          | none => .error "Invalid Notion page URL format".data
    else
      let cleanId := trimmed.filter fun c => c ≠ '-'
      if cleanId.length = 32 && cleanId.all isHexDig then
        .ok (formatNotionId cleanId)
      else
        .error "Invalid page ID format. Expected 32-character hex string.".data

/-! ## `handleCreatePage` (part_000:1762-1814) -/

/-- The response object sent back to the popup; absent keys are `none`. -/
structure HandleResult where
  success : Bool
  pageUrl : Option Str
  pageId : Option Str
  error : Option Str
deriving DecidableEq

/-- The `message.data` payload of a CREATE_NOTION_PAGE request. -/
structure PageData where
  title : Str
  markdown : Str
  parentPageId : Str
  apiToken : Str
  sourceUrl : Option Str

/-- `handleCreatePage` (part_000:1762-1814): field validations and page-id
extraction throw into the catch block, which reports progress
`(50, Error: ...)` and answers `{success:false, error}`; a successful run
answers `{success:true, pageUrl, pageId}`. -/
def handleCreatePageRun (api : NotionCall → Except Str PageRef)
    (data : PageData) : HandleResult × List NotionCall × List (Nat × Str) :=
  if data.apiToken.isEmpty then
    (⟨false, none, none, some "Notion API token is required".data⟩, [],
     [(50, "Error: Notion API token is required".data)])
  else if data.title.isEmpty then
    (⟨false, none, none, some "Page title is required".data⟩, [],
     [(50, "Error: Page title is required".data)])
  else if data.markdown.isEmpty then
    (⟨false, none, none, some "Markdown content is required".data⟩, [],
     [(50, "Error: Markdown content is required".data)])
  else
    match extractAndValidatePageId data.parentPageId with
    | .error e =>
        (⟨false, none, none, some e⟩, [], [(50, "Error: ".data ++ e)])
    | .ok validatedPageId =>
        let run := createNotionPageRun api data.title validatedPageId
          data.markdown data.sourceUrl
        let prog := (55, "Starting page creation...".data) :: run.progress
        match run.result with
        | .ok page =>
            (⟨true, some page.url, some page.id, none⟩, run.calls, prog)
        | .error e =>
            (⟨false, none, none, some e⟩, run.calls,
             prog ++ [(50, "Error: ".data ++ e)])

end C2N

namespace C2N

/-! ## Claim-side predicates and concrete run configurations -/

/-- A string free of every character that can open an inline-markup match
(star, underscore, tilde, backtick, opening bracket); on such input none of
the seven patterns can match. -/
def noMarkupChars (t : Str) : Bool :=
  t.all fun c => !(c = '*' || c = '_' || c = '~' || c = btick || c = '[')

/-- The hyphenated UUID shape `8-4-4-4-12` over hex digits. -/
def isHyphenatedUuid (s : Str) : Bool :=
  match splitOnChar '-' s with
  | [a, b, c, d, e] =>
      a.length = 8 && b.length = 4 && c.length = 4 && d.length = 4 &&
      e.length = 12 && (a ++ b ++ c ++ d ++ e).all isHexDig
  | _ => false

/-- An API behaviour that answers every request successfully with a fixed
page. -/
def apiAllOk : NotionCall → Except Str PageRef :=
  fun _ => .ok ⟨"PID".data, "PURL".data⟩

/-- An API behaviour whose page creation succeeds and whose append-children
requests all fail. -/
def apiAppendFails : NotionCall → Except Str PageRef := fun c =>
  match c with
  | .createPage _ _ _ => .ok ⟨"partial-page-id".data, "partial-page-url".data⟩
  | .appendChildren _ _ => .error "append failed".data

/-- A 101-line Markdown document, converting to 101 paragraph blocks so
that an append call is required after page creation. -/
def md101 : Str := joinWith "\n".data (List.replicate 101 "x".data)

/-- A well-formed CREATE_NOTION_PAGE payload using `md101`. -/
def c9Data : PageData :=
  ⟨"T".data, md101, "2dadca9a3fff80278295e23720dd2a53".data, "token".data,
   none⟩

/-- A rich-text segment exceeding the 2000-unit ceiling, carrying an
annotation and an already-validated link. -/
def c5LongSeg : RichTextSegment :=
  ⟨List.replicate 2001 'a', some "https://a.b".data,
   some ⟨true, false, false, false⟩⟩

end C2N

namespace C2N

/-! ## Helper lemmas -/

/-- A nonempty list within the chunk size yields a single chunk. -/
theorem chunkEvery_single {α : Type} (n : Nat) (l : List α) (hne : l ≠ [])
    (hle : l.length ≤ n) : chunkEvery n l = [l] := by
  cases l with
  | nil => exact absurd rfl hne
  | cons x t =>
      have hdrop : t.drop (n - 1) = [] := by
        apply List.drop_eq_nil_of_le
        simp at hle
        omega
      simp only [chunkEvery, List.length_cons, chunkEveryAux, hdrop,
        List.take_of_length_le hle]

/-- With enough fuel, every chunk respects the size bound. -/
theorem chunkEveryAux_mem_len {α : Type} (n : Nat) :
    ∀ (fuel : Nat) (l : List α), l.length ≤ fuel →
      ∀ c ∈ chunkEveryAux n fuel l, c.length ≤ n := by
  intro fuel
  induction fuel with
  | zero =>
      intro l hl c hc
      have : l = [] := List.eq_nil_of_length_eq_zero (Nat.le_zero.mp hl)
      subst this
      simp [chunkEveryAux] at hc
  | succ f ih =>
      intro l hl c hc
      cases l with
      | nil => simp [chunkEveryAux] at hc
      | cons x t =>
          rw [chunkEveryAux] at hc
          rcases List.mem_cons.mp hc with h | h
          · subst h
            have := List.length_take n (x :: t)
            omega
          · apply ih (t.drop (n - 1)) _ c h
            have := List.length_drop (n - 1) t
            simp only [List.length_cons] at hl
            omega

/-- Every chunk respects the size bound. -/
theorem chunkEvery_mem_len {α : Type} (n : Nat)
    (l : List α) (c : List α) (hmem : c ∈ chunkEvery n l) : c.length ≤ n :=
  chunkEveryAux_mem_len n l.length l (Nat.le_refl _) c hmem

/-- With enough fuel, flattening the chunks restores the list. -/
theorem chunkEveryAux_flatten {α : Type} (n : Nat) (hn : 0 < n) :
    ∀ (fuel : Nat) (l : List α), l.length ≤ fuel →
      (chunkEveryAux n fuel l).flatten = l := by
  intro fuel
  induction fuel with
  | zero =>
      intro l hl
      have : l = [] := List.eq_nil_of_length_eq_zero (Nat.le_zero.mp hl)
      subst this
      simp [chunkEveryAux]
  | succ f ih =>
      intro l hl
      cases l with
      | nil => simp [chunkEveryAux]
      | cons x t =>
          rw [chunkEveryAux, List.flatten_cons]
          have hdrop : t.drop (n - 1) = (x :: t).drop n := by
            cases n with
            | zero => omega
            | succ m => simp
          rw [ih (t.drop (n - 1)) ?_, hdrop, List.take_append_drop]
          have := List.length_drop (n - 1) t
          simp only [List.length_cons] at hl
          omega

/-- Flattening the chunks restores the list. -/
theorem chunkEvery_flatten {α : Type} (n : Nat) (hn : 0 < n) (l : List α) :
    (chunkEvery n l).flatten = l :=
  chunkEveryAux_flatten n hn l.length l (Nat.le_refl _)

/-- The fuel is irrelevant once it covers the list length. -/
theorem chunkEveryAux_fuel_irrel {α : Type} (n : Nat) :
    ∀ (f1 f2 : Nat) (l : List α), l.length ≤ f1 → l.length ≤ f2 →
      chunkEveryAux n f1 l = chunkEveryAux n f2 l := by
  intro f1
  induction f1 with
  | zero =>
      intro f2 l h1 h2
      have : l = [] := List.eq_nil_of_length_eq_zero (Nat.le_zero.mp h1)
      subst this
      cases f2 <;> rfl
  | succ f ih =>
      intro f2 l h1 h2
      cases l with
      | nil => cases f2 <;> rfl
      | cons x t =>
          cases f2 with
          | zero => simp at h2
          | succ g =>
              rw [chunkEveryAux, chunkEveryAux]
              congr 1
              apply ih
              · have := List.length_drop (n - 1) t
                simp only [List.length_cons] at h1
                omega
              · have := List.length_drop (n - 1) t
                simp only [List.length_cons] at h2
                omega

/-- Unfolding rule for `chunkEvery` on a nonempty list. -/
theorem chunkEvery_cons {α : Type} (n : Nat) (hn : 0 < n) (l : List α)
    (hne : l ≠ []) :
    chunkEvery n l = l.take n :: chunkEvery n (l.drop n) := by
  cases l with
  | nil => exact absurd rfl hne
  | cons x t =>
      show chunkEveryAux n (t.length + 1) (x :: t) = _
      rw [chunkEveryAux]
      congr 1
      have hd : t.drop (n - 1) = (x :: t).drop n := by
        cases n with
        | zero => omega
        | succ m => simp
      rw [hd]
      apply chunkEveryAux_fuel_irrel
      · have := List.length_drop n (x :: t)
        simp only [List.length_cons] at this ⊢
        omega
      · exact Nat.le_refl _

/-- The content stored by `createRichTextSegment` is its first argument. -/
theorem createRichTextSegment_content (c : Str) (a : Annot)
    (l : Option Str) : (createRichTextSegment c a l).content = c := rfl

/-- Every segment the final pass emits for one input segment is within the
ceiling. -/
theorem splitLongSegment_len (x : RichTextSegment) (seg : RichTextSegment)
    (h : seg ∈ splitLongSegment x) :
    seg.content.length ≤ MAX_TEXT_LENGTH := by
  unfold splitLongSegment at h
  split at h
  · next hle =>
      rw [List.mem_singleton] at h
      subst h
      exact hle
  · next hgt =>
      rcases List.mem_map.mp h with ⟨c, hc, heq⟩
      subst heq
      rw [createRichTextSegment_content]
      exact chunkEvery_mem_len MAX_TEXT_LENGTH _ c hc

/-- Every segment the final pass emits is within the ceiling. -/
theorem splitPass_len (l : List RichTextSegment) (seg : RichTextSegment)
    (h : seg ∈ splitPass l) : seg.content.length ≤ MAX_TEXT_LENGTH := by
  unfold splitPass at h
  rcases List.mem_flatten.mp h with ⟨chunkList, hin, hmem⟩
  rcases List.mem_map.mp hin with ⟨x, _, hx⟩
  subst hx
  exact splitLongSegment_len x seg hmem

/-- Every rich-text run the inline formatter produces is within the
ceiling. -/
theorem parseInlineMarkdown_len (s : Str) (seg : RichTextSegment)
    (h : seg ∈ parseInlineMarkdown s) :
    seg.content.length ≤ MAX_TEXT_LENGTH := by
  unfold parseInlineMarkdown parseInlineMarkdownF at h
  split at h
  · rw [List.mem_singleton] at h; subst h; simp [plainSeg, MAX_TEXT_LENGTH]
  · simp only [] at h
    split at h
    · exact splitPass_len _ seg h
    · rw [List.mem_singleton] at h; subst h; simp [plainSeg, MAX_TEXT_LENGTH]

theorem cleanNumbering_bracket (s : Str) :
    cleanNumbering ('[' :: s) = '[' :: s := by
  have hd : pDigits ('[' :: s) = none := by
    simp [pDigits, List.takeWhile_cons, isDig]
  have hdup : pDupDigit ('[' :: s) = none := by
    simp [pDupDigit, isDig]
  simp [cleanNumbering, applyRule, hd, hdup]

/-- C3: a five-level nested bullet run (indent levels 0 through 4) emits
the level-0 and level-1 items with their children in a native children
array, the level-2 item as a flat sibling inside its parent's children
array with no children array of its own, and every deeper item flattened
after it with a visible `[ind4]` / `[ind5]` marker — the marker level being
the item's 1-indexed depth — prefixed to its text. -/
theorem claim_C3 (c0 c1 c2 c3 c4 : Str) :
    buildNestedList
      [⟨0, 0, c0, false⟩, ⟨2, 1, c1, false⟩, ⟨4, 2, c2, false⟩,
       ⟨6, 3, c3, false⟩, ⟨8, 4, c4, false⟩] .bullet (some 0) =
    [ Block.bulleted (parseInlineMarkdown (cleanNumbering c0)) (some
        [ Block.bulleted (parseInlineMarkdown (cleanNumbering c1)) (some
            [ Block.bulleted (parseInlineMarkdown (cleanNumbering c2)) none,
              Block.bulleted
                (parseInlineMarkdown ("[ind4] ".data ++ c3)) none,
              Block.bulleted
                (parseInlineMarkdown ("[ind5] ".data ++ c4)) none ]) ]) ] := by
  have htree : buildTree
      [⟨0, 0, c0, false⟩, ⟨2, 1, c1, false⟩, ⟨4, 2, c2, false⟩,
       ⟨6, 3, c3, false⟩, ⟨8, 4, c4, false⟩] =
      [ .mk ⟨0, 0, c0, false⟩
          [ .mk ⟨2, 1, c1, false⟩
              [ .mk ⟨4, 2, c2, false⟩
                  [ .mk ⟨6, 3, c3, false⟩
                      [ .mk ⟨8, 4, c4, false⟩ [] ] ] ] ] ] := by
    simp [buildTree, popWhileLevel, flushStack]
  have h4 : (toString (4 : Nat)).data = ['4'] := rfl
  have h5 : (toString (5 : Nat)).data = ['5'] := rfl
  have hbr3 : cleanNumbering ('[' :: 'i' :: 'n' :: 'd' :: '4' :: ']' :: ' ' :: c3) =
      '[' :: 'i' :: 'n' :: 'd' :: '4' :: ']' :: ' ' :: c3 :=
    cleanNumbering_bracket _
  have hbr4 : cleanNumbering ('[' :: 'i' :: 'n' :: 'd' :: '5' :: ']' :: ' ' :: c4) =
      '[' :: 'i' :: 'n' :: 'd' :: '5' :: ']' :: ' ' :: c4 :=
    cleanNumbering_bracket _
  unfold buildNestedList
  rw [if_neg (by simp)]
  rw [htree]
  simp only [flattenNodes, flattenNode, createListItemBlock,
    createBulletedListItem, blockWithChildren, natToStr]
  norm_num [h4, h5, hbr3, hbr4]

/-! ## C5: run-length invariant and splitting of over-long runs -/

/-- The amended splitting behaviour of the final pass on one over-long
segment whose link (if any) is a fixpoint of URL validation and whose
annotation object (if any) is nonempty — which is how every segment the
formatter builds looks. -/
theorem splitLongSegment_eq (long : RichTextSegment)
    (hlong : MAX_TEXT_LENGTH < long.content.length)
    (hlink : ∀ u, long.link = some u →
      u.isEmpty = false ∧ validateAndCleanUrl u = some u)
    (hann : ∀ a, long.annots = some a → annIsEmpty a = false) :
    splitLongSegment long =
      (chunkEvery MAX_TEXT_LENGTH long.content).map
        fun c => ⟨c, long.link, long.annots⟩ := by
  unfold splitLongSegment
  rw [if_neg (by omega)]
  apply List.map_congr_left
  intro c _
  unfold createRichTextSegment
  rcases hl : long.link with _ | u
  · rcases ha : long.annots with _ | a
    · simp [ha, annIsEmpty, noAnn]
    · have hea := hann a ha
      simp [ha, hea]
  · have hu := hlink u hl
    rcases ha : long.annots with _ | a
    · simp [ha, hu.1, hu.2, annIsEmpty, noAnn]
    · have hea := hann a ha
      simp [ha, hu.1, hu.2, hea]

/-! ## C8: plain text without markup characters -/

theorem tryCodeAt_none (prev : Option Char) (c : Char) (rest : Str) (p : Nat)
    (hc : c ≠ btick) : tryCodeAt prev (c :: rest) p = none := by
  simp [tryCodeAt, hc]

theorem tryBoldStarAt_none (prev : Option Char) (c : Char) (rest : Str)
    (p : Nat) (hc : c ≠ '*') : tryBoldStarAt prev (c :: rest) p = none := by
  unfold tryBoldStarAt
  split
  · rename_i r heq
    injection heq with h1 _
    exact absurd h1 hc
  · rfl

theorem tryBoldUndAt_none (prev : Option Char) (c : Char) (rest : Str)
    (p : Nat) (hc : c ≠ '_') : tryBoldUndAt prev (c :: rest) p = none := by
  unfold tryBoldUndAt
  split
  · rename_i r heq
    injection heq with h1 _
    exact absurd h1 hc
  · rfl

theorem tryStrikeAt_none (prev : Option Char) (c : Char) (rest : Str)
    (p : Nat) (hc : c ≠ '~') : tryStrikeAt prev (c :: rest) p = none := by
  unfold tryStrikeAt
  split
  · rename_i r heq
    injection heq with h1 _
    exact absurd h1 hc
  · rfl

theorem tryItalicStarAt_none (prev : Option Char) (c : Char) (rest : Str)
    (p : Nat) (hc : c ≠ '*') : tryItalicStarAt prev (c :: rest) p = none := by
  unfold tryItalicStarAt
  split
  · rename_i r heq
    injection heq with h1 _
    exact absurd h1 hc
  · rfl

theorem tryItalicUndAt_none (prev : Option Char) (c : Char) (rest : Str)
    (p : Nat) (hc : c ≠ '_') : tryItalicUndAt prev (c :: rest) p = none := by
  unfold tryItalicUndAt
  split
  · rename_i r heq
    injection heq with h1 _
    exact absurd h1 hc
  · rfl

theorem tryLinkAt_none (prev : Option Char) (c : Char) (rest : Str)
    (p : Nat) (hc : c ≠ '[') : tryLinkAt prev (c :: rest) p = none := by
  unfold tryLinkAt
  split
  · rename_i r heq
    injection heq with h1 _
    exact absurd h1 hc
  · rfl

/-- A pattern that fails at the head of every suffix never matches. -/
theorem scanMatches_nil (tryAt : Option Char → Str → Nat → Option MdMatch)
    (bad : Char → Prop)
    (htry : ∀ prev c rest p, ¬bad c → tryAt prev (c :: rest) p = none) :
    ∀ (fuel : Nat) (prev : Option Char) (suf : Str) (p : Nat),
      (∀ c ∈ suf, ¬bad c) → scanMatches tryAt fuel prev suf p = [] := by
  intro fuel
  induction fuel with
  | zero => intro prev suf p _; rfl
  | succ f ih =>
      intro prev suf p h
      cases suf with
      | nil => rfl
      | cons c rest =>
          rw [scanMatches, htry prev c rest p (h c (by simp))]
          exact ih (some c) rest (p + 1) fun x hx => h x (by simp [hx])

/-- No pattern matches a markup-free string. -/
theorem collectMatches_nil (t : Str) (hm : noMarkupChars t = true) :
    collectMatches t = [] := by
  have hall := List.all_eq_true.mp hm
  have h1 : ∀ c ∈ t, ¬(c = btick) := by
    intro c hc h
    have := hall c hc
    simp [h] at this
  have h2 : ∀ c ∈ t, ¬(c = '*') := by
    intro c hc h
    have := hall c hc
    simp [h] at this
  have h3 : ∀ c ∈ t, ¬(c = '_') := by
    intro c hc h
    have := hall c hc
    simp [h] at this
  have h4 : ∀ c ∈ t, ¬(c = '~') := by
    intro c hc h
    have := hall c hc
    simp [h] at this
  have h5 : ∀ c ∈ t, ¬(c = '[') := by
    intro c hc h
    have := hall c hc
    simp [h] at this
  unfold collectMatches execPattern
  rw [scanMatches_nil tryCodeAt _ (fun p c r q hc => tryCodeAt_none p c r q hc) _ none t 0 h1,
    scanMatches_nil tryBoldStarAt _ (fun p c r q hc => tryBoldStarAt_none p c r q hc) _ none t 0 h2,
    scanMatches_nil tryBoldUndAt _ (fun p c r q hc => tryBoldUndAt_none p c r q hc) _ none t 0 h3,
    scanMatches_nil tryStrikeAt _ (fun p c r q hc => tryStrikeAt_none p c r q hc) _ none t 0 h4,
    scanMatches_nil tryItalicStarAt _ (fun p c r q hc => tryItalicStarAt_none p c r q hc) _ none t 0 h2,
    scanMatches_nil tryItalicUndAt _ (fun p c r q hc => tryItalicUndAt_none p c r q hc) _ none t 0 h3,
    scanMatches_nil tryLinkAt _ (fun p c r q hc => tryLinkAt_none p c r q hc) _ none t 0 h5]
  rfl

/-- On markup-free, non-blank input the formatter reaches the final pass
with the single plain segment holding the entire text. -/
theorem parseInline_noMarkup_pre (t : Str) (hm : noMarkupChars t = true)
    (hne : (jsTrim t).isEmpty = false) :
    parseInlineMarkdown t = splitPass [plainSeg t] := by
  have hne' : t.isEmpty = false := by
    cases t with
    | nil => simp [jsTrim, trimStart, trimEnd] at hne
    | cons _ _ => rfl
  have hlen : 0 < t.length := by
    cases t with
    | nil => simp at hne'
    | cons _ _ => simp
  have hbuild : buildRichAux (fun c => parseInlineMarkdownF t.length c) t [] 0 =
      [plainSeg t] := by
    unfold buildRichAux
    rw [if_pos hlen]
    simp only [List.drop_zero]
    rw [if_neg (by simp [List.isEmpty_iff]; intro h; rw [h] at hne'; simp at hne')]
    rfl
  have hone : splitPass [plainSeg t] = splitLongSegment (plainSeg t) := by
    simp [splitPass]
  have hnil : splitLongSegment (plainSeg t) ≠ [] := by
    unfold splitLongSegment
    split
    · simp
    · next hgt =>
        have hch : chunkEvery MAX_TEXT_LENGTH (plainSeg t).content ≠ [] := by
          cases ht : (plainSeg t).content with
          | nil => rw [ht] at hgt; simp [MAX_TEXT_LENGTH] at hgt
          | cons x xs => simp [chunkEvery, chunkEveryAux]
        intro h
        exact hch (List.map_eq_nil_iff.mp h)
  have hsplit_ne : (splitPass [plainSeg t]).length > 0 := by
    rw [hone]
    exact List.length_pos.mpr hnil
  unfold parseInlineMarkdown parseInlineMarkdownF
  rw [if_neg (by simp [hne, hne'])]
  simp only []
  rw [collectMatches_nil t hm]
  show (if (splitPass (buildRichAux _ t (removeOverlaps (sortByStart [])) 0)).length > 0
        then splitPass (buildRichAux _ t (removeOverlaps (sortByStart [])) 0)
        else [plainSeg []]) = splitPass [plainSeg t]
  have hsr : removeOverlaps (sortByStart []) = [] := rfl
  rw [hsr, hbuild, if_pos hsplit_ne]

/-! ## Claim theorems C5 and C8 -/

/-- C5: every text run produced by the inline formatter has content length
at most 2000 code units, and a run that exceeds the ceiling is split by the
final pass into consecutive sibling chunks that concatenate back to the
original content, each inheriting the run's annotations and link (the run's
link, when present, being an already-validated URL and its annotation
object nonempty, as holds for every run the formatter builds). -/
theorem claim_C5 (s : Str) (seg long : RichTextSegment)
    (hmem : seg ∈ parseInlineMarkdown s)
    (hlong : MAX_TEXT_LENGTH < long.content.length)
    (hlink : ∀ u, long.link = some u →
      u.isEmpty = false ∧ validateAndCleanUrl u = some u)
    (hann : ∀ a, long.annots = some a → annIsEmpty a = false) :
    seg.content.length ≤ MAX_TEXT_LENGTH ∧
    splitLongSegment long =
      (chunkEvery MAX_TEXT_LENGTH long.content).map
        (fun c => ⟨c, long.link, long.annots⟩) ∧
    (chunkEvery MAX_TEXT_LENGTH long.content).flatten = long.content :=
  ⟨parseInlineMarkdown_len s seg hmem,
   splitLongSegment_eq long hlong hlink hann,
   chunkEvery_flatten MAX_TEXT_LENGTH (by decide) long.content⟩

/-- C5 witness. -/
theorem claim_C5_witness :
    (plainSeg "x".data) ∈ parseInlineMarkdown "x".data ∧
    ((plainSeg "x".data).content.length ≤ MAX_TEXT_LENGTH ∧
     splitLongSegment c5LongSeg =
       (chunkEvery MAX_TEXT_LENGTH c5LongSeg.content).map
         (fun c => ⟨c, c5LongSeg.link, c5LongSeg.annots⟩) ∧
     (chunkEvery MAX_TEXT_LENGTH c5LongSeg.content).flatten =
       c5LongSeg.content) := by
  refine ⟨by decide, claim_C5 "x".data (plainSeg "x".data) c5LongSeg
    (by decide)
    (by rw [show c5LongSeg.content = List.replicate 2001 'a' from rfl,
          List.length_replicate]
        decide) ?_ ?_⟩
  · intro u hu
    simp only [c5LongSeg, Option.some.injEq] at hu
    subst hu
    exact ⟨by decide, by decide⟩
  · intro a ha
    simp only [c5LongSeg, Option.some.injEq] at ha
    subst ha
    decide

/-- C8 counterexample: a 2001-character markup-free string yields two runs,
not one. -/
theorem claim_C8_counterexample :
    noMarkupChars (List.replicate 2001 'a') = true ∧
    (parseInlineMarkdown (List.replicate 2001 'a')).length = 2 := by
  have hm : noMarkupChars (List.replicate 2001 'a') = true := by
    simp only [noMarkupChars, List.all_eq_true]
    intro c hc
    rw [List.eq_of_mem_replicate hc]
    decide
  have hds : ∀ m : Nat,
      (List.replicate m 'a').dropWhile jsIsSpace = List.replicate m 'a' := by
    intro m
    rw [List.dropWhile_replicate]
    simp [jsIsSpace]
  have htr : jsTrim (List.replicate 2001 'a') = List.replicate 2001 'a' := by
    unfold jsTrim trimStart trimEnd
    rw [hds, List.reverse_replicate, hds, List.reverse_replicate]
  have hne : (jsTrim (List.replicate 2001 'a')).isEmpty = false := by
    rw [htr]
    rfl
  refine ⟨hm, ?_⟩
  rw [parseInline_noMarkup_pre _ hm hne]
  have hone : splitPass [plainSeg (List.replicate 2001 'a')] =
      splitLongSegment (plainSeg (List.replicate 2001 'a')) := by
    simp only [splitPass, List.map, List.flatten_cons, List.flatten_nil,
      List.append_nil]
  rw [hone]
  unfold splitLongSegment
  simp only [plainSeg]
  rw [if_neg (by rw [List.length_replicate]; decide)]
  rw [List.length_map]
  have hrepne : List.replicate 2001 'a' ≠ [] := by
    intro h
    have := congrArg List.length h
    rw [List.length_replicate] at this
    simp at this
  rw [chunkEvery_cons MAX_TEXT_LENGTH (by decide) _ hrepne]
  have hdrop : (List.replicate 2001 'a').drop MAX_TEXT_LENGTH =
      List.replicate 1 'a' := by
    rw [show MAX_TEXT_LENGTH = 2000 from rfl, List.drop_replicate]
  rw [hdrop]
  rw [chunkEvery_single MAX_TEXT_LENGTH _ (by decide)
    (by rw [List.length_replicate]; decide)]
  rfl

/-- C8 amended: on markup-free input of length at most 2000, the formatter
returns exactly one run — the whole text with no annotations and no link
when the input is not blank, the empty-content run when it is. -/
theorem claim_C8_amended (t : Str) (hm : noMarkupChars t = true)
    (hlen : t.length ≤ MAX_TEXT_LENGTH) :
    parseInlineMarkdown t =
      if (jsTrim t).isEmpty then [plainSeg []] else [plainSeg t] := by
  cases he : (jsTrim t).isEmpty with
  | true =>
      rw [if_pos rfl]
      unfold parseInlineMarkdown parseInlineMarkdownF
      rw [if_pos (by simp [he])]
  | false =>
      rw [if_neg (by simp)]
      rw [parseInline_noMarkup_pre t hm he]
      show (List.map splitLongSegment [plainSeg t]).flatten = [plainSeg t]
      simp only [List.map, List.flatten_cons, List.flatten_nil,
        List.append_nil]
      unfold splitLongSegment
      simp only [plainSeg]
      rw [if_pos hlen]

/-- C8 witness for the amended claim. -/
theorem claim_C8_witness :
    parseInlineMarkdown "hi".data =
      (if (jsTrim "hi".data).isEmpty then [plainSeg []]
       else [plainSeg "hi".data]) :=
  claim_C8_amended "hi".data (by decide) (by decide)

/-! ## Claim theorem C1: 150-block page creation -/

/-- C1: with 150 input blocks and no source-URL callout, the page assembler
issues exactly one page-create call with the first 100 blocks followed by
exactly one append-children call with the remaining 50, and the reported
progress percentages are monotonically non-decreasing. -/
theorem claim_C1 (bs : List Block) (api : NotionCall → Except Str PageRef)
    (page : PageRef) (title parent : Str)
    (hlen : bs.length = 150)
    (hcreate : api (.createPage parent title (bs.take 100)) = .ok page) :
    (createNotionPageCore api title parent bs none).calls =
      [.createPage parent title (bs.take 100),
       .appendChildren page.id (bs.drop 100)] ∧
    List.Chain' (· ≤ ·)
      ((createNotionPageCore api title parent bs none).progress.map
        Prod.fst) := by
  have hne : bs.isEmpty = false := by
    cases bs with
    | nil => simp at hlen
    | cons _ _ => rfl
  have hdl : (bs.drop 100).length = 50 := by
    rw [List.length_drop, hlen]
  have hdne : bs.drop 100 ≠ [] := by
    intro h
    rw [h] at hdl
    simp at hdl
  have hchunk : chunkEvery 100 (bs.drop 100) = [bs.drop 100] :=
    chunkEvery_single _ _ hdne (by omega)
  unfold createNotionPageCore
  simp only [hne, Bool.false_eq_true, if_false, MAX_BLOCKS_PER_REQUEST]
  rw [hcreate]
  simp only [hdl, hchunk]
  unfold appendLoop appendBlocksRun
  simp only [hdl, MAX_BLOCKS_PER_REQUEST]
  norm_num
  cases hap : api (.appendChildren page.id (bs.drop 100)) with
  | error e =>
      dsimp only
      refine ⟨rfl, ?_⟩
      simp [List.chain'_cons, List.chain'_singleton]
  | ok u =>
      dsimp only
      unfold appendLoop
      dsimp only
      refine ⟨rfl, ?_⟩
      simp [List.chain'_cons, List.chain'_singleton]

/-- C1 witness: 150 divider blocks against an all-succeeding API. -/
theorem claim_C1_witness :
    (createNotionPageCore apiAllOk "t".data "p".data
        (List.replicate 150 Block.divider) none).calls =
      [.createPage "p".data "t".data
         ((List.replicate 150 Block.divider).take 100),
       .appendChildren (PageRef.mk "PID".data "PURL".data).id
         ((List.replicate 150 Block.divider).drop 100)] ∧
    List.Chain' (· ≤ ·)
      ((createNotionPageCore apiAllOk "t".data "p".data
          (List.replicate 150 Block.divider) none).progress.map Prod.fst) :=
  claim_C1 (List.replicate 150 Block.divider) apiAllOk
    ⟨"PID".data, "PURL".data⟩ "t".data "p".data
    (by rw [List.length_replicate]) rfl

/-! ## Claim theorem C2 (code bug): fenced-code round trip -/

/-- C2 evaluation at the failing input: the serializer protects the
embedded triple backtick with a four-backtick fence that does not occur in
the text, but the tokenizer only closes a fence on a line whose stripped
form is exactly three backticks, so it swallows the four-backtick closing
fence and the trailing blank lines into the code content — the round trip
does not restore the original text. -/
theorem claim_C2_code_bug :
    serializeCodeBlock "a```b".data [] = "\n\n````\na```b\n````\n\n".data ∧
    strIncludes "a```b".data (codeFenceFor "a```b".data) = false ∧
    markdownToNotionBlocks (serializeCodeBlock "a```b".data []) =
      [Block.code [plainSeg "a```b\n````\n\n".data] "plain text".data] ∧
    "a```b\n````\n\n".data ≠ "a```b".data :=
  ⟨rfl, by decide, rfl, by decide⟩

/-! ## Claim theorem C4: table grid resolution of a 2x2 span -/

/-- C4: a table whose first cell spans 2 rows and 2 columns resolves to a
dense grid where all four spanned positions are non-null — the anchor
holding the cell text, the other three the single-space filler — and a
later cell is placed after skipping the already-filled positions. -/
theorem claim_C4 (t b c : Str) :
    resolveTableGrid [[⟨t, some 2, some 2⟩, ⟨b, none, none⟩],
                      [⟨c, none, none⟩]] =
      [[some (cleanCellText t), some [' '], some (cleanCellText b)],
       [some [' '], some [' '], some (cleanCellText c)]] := by
  have h1 : placeRowCells 2 3 0 [⟨t, some 2, some 2⟩, ⟨b, none, none⟩] 0
      [[none, none, none], [none, none, none]] =
      [[some (cleanCellText t), some [' '], some (cleanCellText b)],
       [some [' '], some [' '], none]] := rfl
  have h2 : placeRowCells 2 3 1 [⟨c, none, none⟩] 0
      [[some (cleanCellText t), some [' '], some (cleanCellText b)],
       [some [' '], some [' '], none]] =
      [[some (cleanCellText t), some [' '], some (cleanCellText b)],
       [some [' '], some [' '], some (cleanCellText c)]] := rfl
  unfold resolveTableGrid
  simp only [List.headD, List.map, effSpan, List.sum_cons, List.sum_nil,
    List.length_cons, List.length_nil, List.enum, List.enumFrom,
    List.foldl_cons, List.foldl_nil, List.replicate]
  norm_num
  rw [h1, h2]

/-! ## Claim theorem C6 (code bug): language normalisation -/

/-- C6 evaluation: the later duplicate keys of `langMap` send `c#` to
`csharp`, which is not a member of `validNotionLanguages` (the set contains
`c#` itself), contradicting the claim that the normalizer always lands in
the accepted set; the empty/whitespace/unrecognised fallbacks do hold. -/
theorem claim_C6_code_bug :
    normalizeLanguage "c#".data = "csharp".data ∧
    validNotionLanguages.contains "csharp".data = false ∧
    normalizeLanguage "".data = "plain text".data ∧
    normalizeLanguage "   ".data = "plain text".data ∧
    normalizeLanguage "unknownlang".data = "plain text".data :=
  ⟨rfl, by decide, rfl, rfl, rfl⟩

/-! ## Claim theorem C10: invalid image URLs degrade to a callout -/

/-- C10: whenever the image URL fails validation, the converter emits (and
does not raise) a callout block with the picture-frame emoji and yellow
background whose first run names the image (using the caption when
present) and whose second run carries the original URL — as a link when the
URL is an http/https string, as plain text otherwise (with `N/A` for an
empty URL). -/
theorem claim_C10 (url caption : Str)
    (h : validateAndCleanUrl url = none) :
    createImageBlock url caption =
      .callout
        [ plainSeg
            (if caption.isEmpty then "Image".data
             else "Image: ".data ++ caption),
          (if strStarts (if url.isEmpty then "N/A".data else url)
                "http://".data ||
              strStarts (if url.isEmpty then "N/A".data else url)
                "https://".data then
             ⟨" - View original image".data,
              some (if url.isEmpty then "N/A".data else url), none⟩
           else
             ⟨" - URL: ".data ++ (if url.isEmpty then "N/A".data else url),
              none, none⟩) ]
        "🖼️".data "yellow_background".data := by
  unfold createImageBlock
  rw [h]

/-- C10 witness: a relative URL with a caption. -/
theorem claim_C10_witness :
    createImageBlock "relative/pic.png".data "cap".data =
      .callout
        [ plainSeg
            (if ("cap".data : Str).isEmpty then "Image".data
             else "Image: ".data ++ "cap".data),
          (if strStarts
                (if ("relative/pic.png".data : Str).isEmpty then "N/A".data
                 else "relative/pic.png".data) "http://".data ||
              strStarts
                (if ("relative/pic.png".data : Str).isEmpty then "N/A".data
                 else "relative/pic.png".data) "https://".data then
             ⟨" - View original image".data,
              some (if ("relative/pic.png".data : Str).isEmpty then
                "N/A".data else "relative/pic.png".data), none⟩
           else
             ⟨" - URL: ".data ++
                (if ("relative/pic.png".data : Str).isEmpty then "N/A".data
                 else "relative/pic.png".data), none, none⟩) ]
        "🖼️".data "yellow_background".data :=
  claim_C10 "relative/pic.png".data "cap".data (by decide)

/-! ## Claim theorem C7: page-id extraction -/

/-- Splitting a separator-free string yields one segment. -/
theorem splitOnCharAux_no_sep (c : Char) :
    ∀ (a acc : Str), (∀ x ∈ a, x ≠ c) →
      splitOnCharAux c a acc = [acc.reverse ++ a] := by
  intro a
  induction a with
  | nil => intro acc _; simp [splitOnCharAux]
  | cons y ys ih =>
      intro acc h
      rw [splitOnCharAux, if_neg (h y (by simp)), ih (y :: acc)
        fun x hx => h x (by simp [hx])]
      simp

/-- Splitting peels off a leading separator-free segment. -/
theorem splitOnCharAux_sep (c : Char) :
    ∀ (a b acc : Str), (∀ x ∈ a, x ≠ c) →
      splitOnCharAux c (a ++ c :: b) acc =
        (acc.reverse ++ a) :: splitOnCharAux c b [] := by
  intro a
  induction a with
  | nil =>
      intro b acc _
      simp only [List.nil_append]
      rw [splitOnCharAux, if_pos rfl]
      simp
  | cons y ys ih =>
      intro b acc h
      simp only [List.cons_append]
      rw [splitOnCharAux, if_neg (h y (by simp)), ih b (y :: acc)
        fun x hx => h x (by simp [hx])]
      simp

/-- A hex digit is not a dash. -/
theorem isHexDig_ne_dash (x : Char) (h : isHexDig x = true) : x ≠ '-' := by
  intro he
  subst he
  simp [isHexDig, isDig] at h

/-- Hyphenating a 32-hex-digit string yields the 8-4-4-4-12 shape. -/
theorem formatNotionId_hyph (cid : Str) (hlen : cid.length = 32)
    (hhex : cid.all isHexDig = true) :
    isHyphenatedUuid (formatNotionId cid) = true := by
  have hhex' := List.all_eq_true.mp hhex
  have hfil : cid.filter (fun c => c ≠ '-') = cid := by
    apply List.filter_eq_self.mpr
    intro a ha
    simp only [decide_eq_true_eq]
    exact isHexDig_ne_dash a (hhex' a ha)
  have hnd : ∀ (f : Str → Str), (∀ x ∈ f cid, x ∈ cid) →
      ∀ x ∈ f cid, x ≠ '-' := by
    intro f hsub x hx
    exact isHexDig_ne_dash x (hhex' x (hsub x hx))
  unfold formatNotionId
  rw [hfil, if_neg (by rw [hlen]; simp)]
  unfold isHyphenatedUuid splitOnChar
  have e1 : ∀ x ∈ cid.take 8, x ≠ '-' := fun x hx =>
    isHexDig_ne_dash x (hhex' x (List.take_subset 8 cid hx))
  have e2 : ∀ x ∈ (cid.drop 8).take 4, x ≠ '-' := fun x hx =>
    isHexDig_ne_dash x
      (hhex' x (List.drop_subset 8 cid (List.take_subset 4 _ hx)))
  have e3 : ∀ x ∈ (cid.drop 12).take 4, x ≠ '-' := fun x hx =>
    isHexDig_ne_dash x
      (hhex' x (List.drop_subset 12 cid (List.take_subset 4 _ hx)))
  have e4 : ∀ x ∈ (cid.drop 16).take 4, x ≠ '-' := fun x hx =>
    isHexDig_ne_dash x
      (hhex' x (List.drop_subset 16 cid (List.take_subset 4 _ hx)))
  have e5 : ∀ x ∈ cid.drop 20, x ≠ '-' := fun x hx =>
    isHexDig_ne_dash x (hhex' x (List.drop_subset 20 cid hx))
  have hshape :
      cid.take 8 ++ ['-'] ++ (cid.drop 8).take 4 ++ ['-'] ++
        (cid.drop 12).take 4 ++ ['-'] ++ (cid.drop 16).take 4 ++ ['-'] ++
        cid.drop 20 =
      cid.take 8 ++ '-' :: ((cid.drop 8).take 4 ++ '-' ::
        ((cid.drop 12).take 4 ++ '-' :: ((cid.drop 16).take 4 ++ '-' ::
          cid.drop 20))) := by
    simp [List.append_assoc]
  rw [hshape]
  rw [splitOnCharAux_sep '-' _ _ [] e1,
    splitOnCharAux_sep '-' _ _ [] e2,
    splitOnCharAux_sep '-' _ _ [] e3,
    splitOnCharAux_sep '-' _ _ [] e4,
    splitOnCharAux_no_sep '-' _ [] e5]
  simp only [List.reverse_nil, List.nil_append]
  have l1 : (cid.take 8).length = 8 := by
    rw [List.length_take, hlen]; omega
  have l2 : ((cid.drop 8).take 4).length = 4 := by
    rw [List.length_take, List.length_drop, hlen]; omega
  have l3 : ((cid.drop 12).take 4).length = 4 := by
    rw [List.length_take, List.length_drop, hlen]; omega
  have l4 : ((cid.drop 16).take 4).length = 4 := by
    rw [List.length_take, List.length_drop, hlen]; omega
  have l5 : (cid.drop 20).length = 12 := by
    rw [List.length_drop, hlen]
  simp only [l1, l2, l3, l4, l5, List.all_append]
  have ha : ∀ (l : Str), (∀ x ∈ l, x ∈ cid) → l.all isHexDig = true := by
    intro l hsub
    exact List.all_eq_true.mpr fun x hx => hhex' x (hsub x hx)
  rw [ha _ (fun x hx => List.take_subset 8 cid hx),
    ha _ (fun x hx => List.drop_subset 8 cid (List.take_subset 4 _ hx)),
    ha _ (fun x hx => List.drop_subset 12 cid (List.take_subset 4 _ hx)),
    ha _ (fun x hx => List.drop_subset 16 cid (List.take_subset 4 _ hx)),
    ha _ (fun x hx => List.drop_subset 20 cid hx)]
  rfl

/-- C7: page-id extraction accepts a bare 32-hex id (optionally
hyphenated) or a URL whose path ends in 32 hex digits, always returning
the hyphenated 8-4-4-4-12 form; the cited URL example extracts and
normalises, the malformed id yields the validation error, and with a
malformed parent id `handleCreatePage` issues no API call. -/
theorem claim_C7 (s pid : Str)
    (h : extractAndValidatePageId s = .ok pid) :
    isHyphenatedUuid pid = true ∧
    extractAndValidatePageId
      "https://x.tld/Page-2dadca9a3fff80278295e23720dd2a53".data =
      .ok "2dadca9a-3fff-8027-8295-e23720dd2a53".data ∧
    extractAndValidatePageId "not-a-valid-id".data =
      .error "Invalid page ID format. Expected 32-character hex string.".data ∧
    ∀ (api : NotionCall → Except Str PageRef) (d : PageData),
      d.parentPageId = "not-a-valid-id".data →
      (handleCreatePageRun api d).2.1 = [] := by
  refine ⟨?_, rfl, rfl, ?_⟩
  · unfold extractAndValidatePageId at h
    split at h
    · exact Except.noConfusion h
    · simp only [] at h
      split at h
      · -- URL branch: split the match on the parse result
        split at h
        · exact Except.noConfusion h
        · -- some u: split the combined pathname match
          split at h
          · next heqm =>
              simp only [Except.ok.injEq] at h
              subst h
              split at heqm
              · next heq1 =>
                  simp only [Option.some.injEq] at heqm
                  subst heqm
                  unfold matchDashHex32 at heq1
                  split at heq1
                  · next hge =>
                      simp only [] at heq1
                      split at heq1
                      · next hcond =>
                          simp only [Option.some.injEq] at heq1
                          subst heq1
                          apply formatNotionId_hyph
                          · rw [List.length_drop]
                            omega
                          · exact ((Bool.and_eq_true _ _).mp hcond).1
                      · exact Option.noConfusion heq1
                  · exact Option.noConfusion heq1
              · next heq1 =>
                  unfold hexTail32 at heqm
                  split at heqm
                  · next hge =>
                      simp only [] at heqm
                      split at heqm
                      · next hcond =>
                          simp only [Option.some.injEq] at heqm
                          subst heqm
                          apply formatNotionId_hyph
                          · rw [List.length_drop]
                            omega
                          · exact hcond
                      · exact Option.noConfusion heqm
                  · exact Option.noConfusion heqm
          · exact Except.noConfusion h
      · -- bare-id branch
        split at h
        · next hcond =>
            simp only [Except.ok.injEq] at h
            subst h
            have hc := (Bool.and_eq_true _ _).mp hcond
            apply formatNotionId_hyph
            · exact of_decide_eq_true hc.1
            · exact hc.2
        · exact Except.noConfusion h
  · intro api d hpar
    unfold handleCreatePageRun
    rw [hpar]
    rw [show extractAndValidatePageId "not-a-valid-id".data =
      .error "Invalid page ID format. Expected 32-character hex string.".data
      from rfl]
    simp only []
    repeat' split
    all_goals rfl

/-- C7 witness. -/
theorem claim_C7_witness :
    isHyphenatedUuid "2dadca9a-3fff-8027-8295-e23720dd2a53".data = true ∧
    extractAndValidatePageId
      "https://x.tld/Page-2dadca9a3fff80278295e23720dd2a53".data =
      .ok "2dadca9a-3fff-8027-8295-e23720dd2a53".data ∧
    extractAndValidatePageId "not-a-valid-id".data =
      .error "Invalid page ID format. Expected 32-character hex string.".data ∧
    ∀ (api : NotionCall → Except Str PageRef) (d : PageData),
      d.parentPageId = "not-a-valid-id".data →
      (handleCreatePageRun api d).2.1 = [] :=
  claim_C7 "https://x.tld/Page-2dadca9a3fff80278295e23720dd2a53".data
    "2dadca9a-3fff-8027-8295-e23720dd2a53".data rfl

/-! ## Claim C9 (corrected): error results carry no page id or url -/

set_option maxRecDepth 8000 in
/-- C9 counterexample: with a create that succeeds and an append that
fails after 101 blocks, the returned error result carries only the error
message — no page id, no page url — even though both calls were issued. -/
theorem claim_C9_counterexample :
    (handleCreatePageRun apiAppendFails c9Data).1 =
      ⟨false, none, none, some "append failed".data⟩ ∧
    (handleCreatePageRun apiAppendFails c9Data).2.1.length = 2 :=
  ⟨rfl, rfl⟩

/-- Both page fields of any unsuccessful `handleCreatePage` result are
absent (or the run succeeded). -/
theorem handleCreatePage_shape (api : NotionCall → Except Str PageRef)
    (d : PageData) :
    ((handleCreatePageRun api d).1.pageId = none ∧
     (handleCreatePageRun api d).1.pageUrl = none) ∨
    (handleCreatePageRun api d).1.success = true := by
  unfold handleCreatePageRun
  simp only []
  repeat' split
  all_goals simp

/-- C9 amended: an error result from `handleCreatePage` never includes the
partially-created page's id or url — the caller is left without them. -/
theorem claim_C9_amended (api : NotionCall → Except Str PageRef)
    (d : PageData)
    (h : (handleCreatePageRun api d).1.success = false) :
    (handleCreatePageRun api d).1.pageId = none ∧
    (handleCreatePageRun api d).1.pageUrl = none := by
  rcases handleCreatePage_shape api d with hs | hs
  · exact hs
  · rw [h] at hs
    exact Bool.noConfusion hs

set_option maxRecDepth 8000 in
/-- C9 witness for the amended claim. -/
theorem claim_C9_witness :
    (handleCreatePageRun apiAppendFails c9Data).1.pageId = none ∧
    (handleCreatePageRun apiAppendFails c9Data).1.pageUrl = none :=
  claim_C9_amended apiAppendFails c9Data rfl

end C2N
